import Mathlib

/-!
# CNG store enumeration engine (`src/cng_provider/store/cng_store_functions.c`)

A shallow embedding of the store functions of the CNG OpenSSL provider.

Conventions of the embedding.

* A C `char` is its numeric value, and a C string is the list of its `char`s
  before the terminating NUL.  A nullable `const char *` is an `Option`.
  Character classification is that of the "C" locale.
* `HCERTSTORE` is the (read-only) sequence of certificate contexts of the opened
  store in platform enumeration order.  A `PCCERT_CONTEXT` is `none` (NULL) or
  the position of a certificate in that sequence.
* The Windows and OpenSSL primitives the file calls are collected in `Platform`
  (store open and close, property queries, allocation results) and in the
  certificate contexts themselves (encoded bytes, the answer of
  `CryptAcquireCertificatePrivateKey`).
* Every call of a primitive that acquires, releases or hands over a resource is
  appended to the `trace` of the machine state, in program order.
* `debug_printf` has no effect on the state.
* A function that can dereference a null pointer, or whose loop is run with a
  bound, returns `Except Fault`.
-/

namespace CngStore

/-! ## Data model -/

/-- `NCRYPT_KEY_HANDLE` (an `ULONG_PTR`). -/
abbrev NCRYPT_KEY_HANDLE := Nat

/-- `CERT_NCRYPT_KEY_SPEC` of `wincrypt.h`. -/
def CERT_NCRYPT_KEY_SPEC : Nat := 0xFFFFFFFF

/-- `CERT_SYSTEM_STORE_CURRENT_USER` of `wincrypt.h`. -/
def CERT_SYSTEM_STORE_CURRENT_USER : Nat := 0x00010000

/-- `CERT_SYSTEM_STORE_LOCAL_MACHINE` of `wincrypt.h`. -/
def CERT_SYSTEM_STORE_LOCAL_MACHINE : Nat := 0x00020000

/-- `ERROR_SUCCESS`. -/
def ERROR_SUCCESS : Nat := 0

/-- A C string: the values of its characters, terminator excluded. -/
abbrev CString := List Nat

/-- The characters of a string literal. -/
def cstr (s : String) : CString := s.toList.map Char.toNat

/-- `NCRYPT_RSA_ALGORITHM_GROUP`, the wide string `L"RSA"`. -/
def NCRYPT_RSA_ALGORITHM_GROUP : CString := [82, 83, 65]

/-- `OSSL_STORE_PARAM_EXPECT`, the parameter key `"expect"`. -/
def OSSL_STORE_PARAM_EXPECT : String := "expect"

/-- What a successful `CryptAcquireCertificatePrivateKey` writes to its three
out-parameters. -/
structure AcquiredKey where
  handle : NCRYPT_KEY_HANDLE
  key_spec : Nat
  caller_must_free : Bool
deriving DecidableEq, Repr

/-- A certificate context of the store: the encoded certificate
(`pbCertEncoded`, `cbCertEncoded` is the length of the list) and the answer of
`CryptAcquireCertificatePrivateKey` for it (`none` when the call returns FALSE,
in which case nothing is written to the out-parameters). -/
structure CERT_CONTEXT where
  pbCertEncoded : List Nat
  private_key : Option AcquiredKey
deriving DecidableEq, Repr

/-- The opened store: its certificate contexts in enumeration order. -/
abbrev HCERTSTORE := List CERT_CONTEXT

/-- A pointer to a certificate context of the store, or NULL. -/
abbrev PCCERT_CONTEXT := Option Nat

/-- The answers of the two `NCryptGetProperty` calls for the algorithm group of
one key handle, and of the `malloc` between them. -/
structure AlgGroupReply where
  size_status : Nat
  malloc_ok : Bool
  read_status : Nat
  value : CString

/-- The collaborators of the store functions. -/
structure Platform where
  /-- `CertOpenStore` for a location flag and a store name; `none` is NULL. -/
  CertOpenStore : Nat → String → Option HCERTSTORE
  /-- The result of `CertCloseStore`. -/
  CertCloseStore : Option HCERTSTORE → Bool
  /-- The property provider, per key handle. -/
  NCryptGetProperty : NCRYPT_KEY_HANDLE → AlgGroupReply
  /-- Whether `malloc(sizeof(T_CNG_STORE_CTX))` succeeds. -/
  malloc_store_ctx_ok : Bool
  /-- Whether `cng_keymgmt_new` returns a key object. -/
  cng_keymgmt_new_ok : Bool

/-- `T_CNG_KEYMGMT_KEYDATA`: the key object of the session, holding the cached
key handle (`none` until a handle has been stored into it). -/
structure T_CNG_KEYMGMT_KEYDATA where
  windows_key_handle : Option NCRYPT_KEY_HANDLE
deriving DecidableEq, Repr

/-- `T_CNG_STORE_CTX`.  Fields that `malloc` leaves indeterminate are `none`
until they are written. -/
structure T_CNG_STORE_CTX where
  windows_certificate_store : Option HCERTSTORE
  store_location_flag : Option Nat
  windows_system_store_name : Option String
  prev_cert_ctx : PCCERT_CONTEXT
  prev_key_cert_ctx : PCCERT_CONTEXT
  cert_store_eof : Bool
  priv_key_store_eof : Bool
  key : T_CNG_KEYMGMT_KEYDATA
  expected_parameter_type : Option Int
deriving DecidableEq, Repr

/-- The object abstraction handed to `object_cb`: a certificate with its encoded
bytes (`OSSL_OBJECT_PARAM_DATA`), or a private key with its data type
(`OSSL_OBJECT_PARAM_DATA_TYPE`, `none` for a NULL string) and the referenced key
object (`OSSL_OBJECT_PARAM_REFERENCE`). -/
inductive OSSL_OBJECT where
  | CERT (data : List Nat)
  | PKEY (data_type : Option String) (reference : T_CNG_KEYMGMT_KEYDATA)
deriving DecidableEq, Repr

/-- `OSSL_CALLBACK`: the value the callback returns for an object. -/
abbrev OSSL_CALLBACK := OSSL_OBJECT → Int

/-- One entry of an `OSSL_PARAM` array: key and integer datum. -/
structure OSSL_PARAM where
  key : String
  data : Int
deriving DecidableEq, Repr

/-- The calls of primitives recorded in the trace. -/
inductive Event where
  | CertOpenStore (flag : Nat) (name : String) (ok : Bool)
  | CertEnumCertificatesInStore (prev : PCCERT_CONTEXT) (next : PCCERT_CONTEXT)
  | CryptAcquireCertificatePrivateKey (cert : Nat) (result : Option AcquiredKey)
  | NCryptFreeObject (tmp_key_handle : Option NCRYPT_KEY_HANDLE)
  | object_cb (obj : OSSL_OBJECT) (ret : Int)
  | cng_keymgmt_new (ok : Bool)
  | cng_keymgmt_free (key : T_CNG_KEYMGMT_KEYDATA)
  | malloc_store_ctx (ok : Bool)
  | free_store_ctx
  | CertCloseStore (ok : Bool)
deriving DecidableEq, Repr

/-- The state of one session: the store context and the trace so far. -/
structure Machine where
  store_ctx : T_CNG_STORE_CTX
  trace : List Event
deriving DecidableEq, Repr

/-- The two ways a run of the model ends without a result. -/
inductive Fault where
  | null_dereference
  | loop_bound
deriving DecidableEq, Repr

deriving instance DecidableEq for Except

/-! ## Platform primitives -/

/-- `CertEnumCertificatesInStore(store, prev)`: the first context for a NULL
`prev`, else the context after `prev`; NULL when there is none. -/
def CertEnumCertificatesInStore (store : Option HCERTSTORE) (prev : PCCERT_CONTEXT) :
    PCCERT_CONTEXT :=
  match store with
  | none => none
  | some certs =>
    match prev with
    | none => if 0 < certs.length then some 0 else none
    | some i => if i + 1 < certs.length then some (i + 1) else none

/-- The certificate context a pointer refers to. -/
def deref (store : Option HCERTSTORE) (p : PCCERT_CONTEXT) : Option CERT_CONTEXT :=
  match store, p with
  | some certs, some i => certs.get? i
  | _, _ => none

/-! ## The functions of `cng_store_functions.c` -/

/-- Lines 12-33.  `CERT_STORE_PROV_SYSTEM_A` and `CERT_STORE_READONLY_FLAG` are
constants of the call; the platform answers for the location flag and the name. -/
def initialize_windows_cert_store (P : Platform) (m : Machine) : Int × Machine :=
  let flag := m.store_ctx.store_location_flag.getD 0
  let name := m.store_ctx.windows_system_store_name.getD ""
  let h := P.CertOpenStore flag name
  let m1 : Machine :=
    { store_ctx := { m.store_ctx with windows_certificate_store := h },
      trace := m.trace ++ [Event.CertOpenStore flag name h.isSome] }
  if h.isSome then (1, m1) else (0, m1)

/-- Lines 42-46. -/
def load_another_cert_from_store_into_context (m : Machine) : Machine :=
  let next := CertEnumCertificatesInStore m.store_ctx.windows_certificate_store
    m.store_ctx.prev_cert_ctx
  { store_ctx := { m.store_ctx with prev_cert_ctx := next, cert_store_eof := next.isNone },
    trace := m.trace ++ [Event.CertEnumCertificatesInStore m.store_ctx.prev_cert_ctx next] }

/-- Lines 54-77: `none` is the NULL name. -/
def get_key_algorithm_name (P : Platform) (key : NCRYPT_KEY_HANDLE) : Option String :=
  let r := P.NCryptGetProperty key
  if r.size_status ≠ ERROR_SUCCESS then none
  else if r.malloc_ok = false then none
  else if r.read_status ≠ ERROR_SUCCESS then none
  else if r.value = NCRYPT_RSA_ALGORITHM_GROUP then some "rsaEncryption"
  else none

/-- The `while` loop of lines 88-117, run for at most `fuel` iterations.  On a
failed acquisition `tmp_key_handle` has not been written, and the
`NCryptFreeObject` call of that branch is recorded with `none`. -/
def privkey_loop (P : Platform) : Nat → Machine → Except Fault (Int × Machine)
  | 0, _ => Except.error Fault.loop_bound
  | fuel + 1, m =>
    if m.store_ctx.priv_key_store_eof then Except.ok (0, m)
    else
      let next := CertEnumCertificatesInStore m.store_ctx.windows_certificate_store
        m.store_ctx.prev_key_cert_ctx
      let m1 : Machine :=
        { store_ctx := { m.store_ctx with
            prev_key_cert_ctx := next, priv_key_store_eof := next.isNone },
          trace := m.trace ++
            [Event.CertEnumCertificatesInStore m.store_ctx.prev_key_cert_ctx next] }
      match next with
      | none => Except.ok (0, m1)
      | some i =>
        let acq := (deref m.store_ctx.windows_certificate_store (some i)).bind
          (fun c => c.private_key)
        let m2 : Machine :=
          { m1 with trace := m1.trace ++ [Event.CryptAcquireCertificatePrivateKey i acq] }
        let release (tmp : Option NCRYPT_KEY_HANDLE) : Machine :=
          { m2 with trace := m2.trace ++ [Event.NCryptFreeObject tmp] }
        match acq with
        | none => privkey_loop P fuel (release none)
        | some k =>
          if k.key_spec ≠ CERT_NCRYPT_KEY_SPEC ∨ k.caller_must_free ≠ true then
            privkey_loop P fuel (release (some k.handle))
          else
            match get_key_algorithm_name P k.handle with
            | none => privkey_loop P fuel (release (some k.handle))
            | some _ =>
              Except.ok (1, { m2 with store_ctx := { m2.store_ctx with
                key := { windows_key_handle := some k.handle } } })

/-- The number of certificate contexts of the opened store. -/
def store_size (m : Machine) : Nat :=
  match m.store_ctx.windows_certificate_store with
  | some certs => certs.length
  | none => 0

/-- Lines 87-119.  The loop is run with a bound of one more than the size of
the store. -/
def load_another_privkey_from_store_into_context (P : Platform) (m : Machine) :
    Except Fault (Int × Machine) :=
  privkey_loop P (store_size m + 1) m

/-- The failure exits of `parse_uri_from_store_open`, one per `return 0`:
line 143 (scheme), line 175 (store name), line 191 (location). -/
inductive ParseError where
  | InvalidScheme
  | UnknownStoreName
  | UnknownLocation
deriving DecidableEq, Repr

/-- The result of `parse_uri_from_store_open`: the returned integer, the failure
exit taken (if any) and the store context as the function leaves it. -/
structure ParseOutcome where
  ret : Int
  failure : Option ParseError
  store_ctx : T_CNG_STORE_CTX
deriving DecidableEq, Repr

/-- `toupper` on an `unsigned char`. -/
def toupper (c : Nat) : Nat := if 97 ≤ c ∧ c ≤ 122 then c - 32 else c

/-- `tolower` on an `unsigned char`. -/
def tolower (c : Nat) : Nat := if 65 ≤ c ∧ c ≤ 90 then c + 32 else c

/-- Whether `strncmp(s, t, n)` is zero. -/
def strncmp_zero (s t : CString) (n : Nat) : Bool := s.take n == t.take n

/-- Whether `strcmp(s, t)` is zero. -/
def strcmp_zero (s t : CString) : Bool := s == t

/-- Whether `_stricmp(s, t)` is zero. -/
def stricmp_zero (s t : CString) : Bool := s.map tolower == t.map tolower

/-- `strchr(s, c)`: the offset of the first `c` in `s`, or NULL. -/
def strchr : CString → Nat → Option Nat
  | [], _ => none
  | x :: xs, c => if x = c then some 0 else (strchr xs c).map (· + 1)

/-- Lines 128-138. -/
def are_store_open_args_ok (provctx : Option Nat) (uri : Option CString) : Int :=
  match provctx, uri with
  | some _, some u => if strncmp_zero u (cstr "cng://") 6 then 1 else 0
  | _, _ => 0

/-- Lines 140-196. -/
def parse_uri_from_store_open (store_ctx : T_CNG_STORE_CTX) (uri : Option CString) :
    ParseOutcome :=
  match uri with
  | none => { ret := 0, failure := some ParseError.InvalidScheme, store_ctx := store_ctx }
  | some u =>
    if !strncmp_zero u (cstr "cng://") 6 then
      { ret := 0, failure := some ParseError.InvalidScheme, store_ctx := store_ctx }
    else
      let str := u.drop 6
      let at_sign := strchr str 64
      let store_name : CString :=
        match at_sign with
        | some k => str.take (if k ≥ 64 then 63 else k)
        | none => str.take 63
      let store_name := store_name.map toupper
      let matched : Option String :=
        if strcmp_zero store_name (cstr "CA") then some "CA"
        else if strcmp_zero store_name (cstr "MY") then some "MY"
        else if strcmp_zero store_name (cstr "ROOT") then some "ROOT"
        else none
      match matched with
      | none =>
        { ret := 0, failure := some ParseError.UnknownStoreName, store_ctx := store_ctx }
      | some name =>
        let ctx1 : T_CNG_STORE_CTX :=
          { store_ctx with
            windows_system_store_name := some name,
            store_location_flag := some CERT_SYSTEM_STORE_CURRENT_USER }
        match at_sign with
        | none => { ret := 1, failure := none, store_ctx := ctx1 }
        | some k =>
          let location := str.drop (k + 1)
          if stricmp_zero location (cstr "localmachine") then
            { ret := 1, failure := none,
              store_ctx := { ctx1 with
                store_location_flag := some CERT_SYSTEM_STORE_LOCAL_MACHINE } }
          else if stricmp_zero location (cstr "currentuser") then
            { ret := 1, failure := none,
              store_ctx := { ctx1 with
                store_location_flag := some CERT_SYSTEM_STORE_CURRENT_USER } }
          else
            { ret := 0, failure := some ParseError.UnknownLocation, store_ctx := ctx1 }

/-- Modelled from the spec: `cng_keymgmt_new` is not part of this file; the key
object it returns holds no key handle (the key cache starts with zero handles). -/
def cng_keymgmt_new_keydata : T_CNG_KEYMGMT_KEYDATA := { windows_key_handle := none }

/-- Lines 216 and 198-204 and 224: the freshly allocated context after
`init_store_ctx`, with its key object. -/
def init_store_ctx : T_CNG_STORE_CTX :=
  { windows_certificate_store := none,
    store_location_flag := none,
    windows_system_store_name := none,
    prev_cert_ctx := none,
    prev_key_cert_ctx := none,
    cert_store_eof := false,
    priv_key_store_eof := false,
    key := cng_keymgmt_new_keydata,
    expected_parameter_type := none }

/-- Lines 213-259.  The result is the loader context (`none` is NULL) and the
trace of the call. -/
def cng_store_open (P : Platform) (provctx : Option Nat) (uri : Option CString) :
    Except Fault (Option T_CNG_STORE_CTX × List Event) :=
  if are_store_open_args_ok provctx uri = 0 then Except.ok (none, [])
  else if P.malloc_store_ctx_ok = false then
    Except.ok (none, [Event.malloc_store_ctx false])
  else if P.cng_keymgmt_new_ok = false then
    Except.ok (none, [Event.malloc_store_ctx true, Event.cng_keymgmt_new false,
      Event.free_store_ctx])
  else
    let tr := [Event.malloc_store_ctx true, Event.cng_keymgmt_new true]
    let parsed := parse_uri_from_store_open init_store_ctx uri
    if parsed.ret = 0 then
      Except.ok (none, tr ++ [Event.cng_keymgmt_free parsed.store_ctx.key,
        Event.free_store_ctx])
    else
      let opened := initialize_windows_cert_store P
        { store_ctx := parsed.store_ctx, trace := tr }
      if opened.1 = 0 then
        Except.ok (none, opened.2.trace ++ [Event.cng_keymgmt_free opened.2.store_ctx.key,
          Event.free_store_ctx])
      else
        let m1 := load_another_cert_from_store_into_context opened.2
        match load_another_privkey_from_store_into_context P m1 with
        | Except.error f => Except.error f
        | Except.ok (_, m2) => Except.ok (some m2.store_ctx, m2.trace)

/-- `OSSL_PARAM_locate_const`. -/
def OSSL_PARAM_locate_const (params : List OSSL_PARAM) (key : String) : Option OSSL_PARAM :=
  params.find? (fun p => p.key == key)

/-- Lines 283-303; `none` is a NULL `params`. -/
def cng_store_set_ctx_params (m : Machine) (params : Option (List OSSL_PARAM)) :
    Int × Machine :=
  match params with
  | none => (1, m)
  | some ps =>
    match OSSL_PARAM_locate_const ps OSSL_STORE_PARAM_EXPECT with
    | some p =>
      (1, { m with store_ctx := { m.store_ctx with expected_parameter_type := some p.data } })
    | none => (1, m)

/-- Lines 312-327. -/
def load_another_cert (m : Machine) (object_cb : OSSL_CALLBACK) : Except Fault Machine :=
  match deref m.store_ctx.windows_certificate_store m.store_ctx.prev_cert_ctx with
  | none => Except.error Fault.null_dereference
  | some c =>
    let obj := OSSL_OBJECT.CERT c.pbCertEncoded
    let next := CertEnumCertificatesInStore m.store_ctx.windows_certificate_store
      m.store_ctx.prev_cert_ctx
    Except.ok
      { store_ctx := { m.store_ctx with
          prev_cert_ctx := next,
          cert_store_eof := if next.isNone then true else m.store_ctx.cert_store_eof },
        trace := m.trace ++ [Event.object_cb obj (object_cb obj),
          Event.CertEnumCertificatesInStore m.store_ctx.prev_cert_ctx next] }

/-- Lines 337-364.  The property queries on a key object that holds no handle
fail, so its data type is the NULL string. -/
def load_another_private_key (P : Platform) (m : Machine) (object_cb : OSSL_CALLBACK) :
    Except Fault (Int × Machine) :=
  if m.store_ctx.priv_key_store_eof then Except.ok (0, m)
  else
    let keytype := m.store_ctx.key.windows_key_handle.bind (get_key_algorithm_name P)
    let obj := OSSL_OBJECT.PKEY keytype m.store_ctx.key
    let m1 : Machine := { m with trace := m.trace ++ [Event.object_cb obj (object_cb obj)] }
    if object_cb obj = 0 then Except.ok (0, m1)
    else
      match load_another_privkey_from_store_into_context P m1 with
      | Except.error f => Except.error f
      | Except.ok (_, m2) => Except.ok (1, m2)

/-- Lines 382-427. -/
def cng_store_load (P : Platform) (m : Machine) (object_cb : OSSL_CALLBACK) :
    Except Fault (Int × Machine) :=
  if !m.store_ctx.cert_store_eof then
    match load_another_cert m object_cb with
    | Except.error f => Except.error f
    | Except.ok m1 => Except.ok (1, m1)
  else if !m.store_ctx.priv_key_store_eof then
    load_another_private_key P m object_cb
  else Except.ok (0, m)

/-- Lines 437-441. -/
def cng_store_eof (m : Machine) : Int :=
  if m.store_ctx.cert_store_eof && m.store_ctx.priv_key_store_eof then 1 else 0

/-- Lines 448-456. -/
def cng_store_close (P : Platform) (m : Machine) : Int × Machine :=
  let cs := P.CertCloseStore m.store_ctx.windows_certificate_store
  let m1 : Machine := { m with trace := m.trace ++ [Event.CertCloseStore cs] }
  if cs ≠ true then (0, m1)
  else
    (1, { m1 with trace := m1.trace ++
      [Event.cng_keymgmt_free m.store_ctx.key, Event.free_store_ctx] })

/-! ## Driving a session -/

/-- A call of the host on an open session. -/
inductive Call where
  | load (object_cb : OSSL_CALLBACK)
  | eof
  | set_ctx_params (params : Option (List OSSL_PARAM))

/-- The objects handed to `object_cb` in a trace, in order. -/
def emitted : List Event → List OSSL_OBJECT
  | [] => []
  | Event.object_cb obj _ :: es => obj :: emitted es
  | _ :: es => emitted es

/-- What the host observes of one call: the returned integer and the objects
its callback received during the call. -/
structure Response where
  ret : Int
  objects : List OSSL_OBJECT
deriving DecidableEq, Repr

/-- One call on a session. -/
def step (P : Platform) (m : Machine) : Call → Except Fault (Response × Machine)
  | Call.load cb =>
    match cng_store_load P m cb with
    | Except.error f => Except.error f
    | Except.ok (r, m1) =>
      Except.ok ({ ret := r, objects := emitted (m1.trace.drop m.trace.length) }, m1)
  | Call.eof => Except.ok ({ ret := cng_store_eof m, objects := [] }, m)
  | Call.set_ctx_params ps =>
    let r := cng_store_set_ctx_params m ps
    Except.ok ({ ret := r.1, objects := [] }, r.2)

/-- A sequence of calls on a session, with the responses in order. -/
def run (P : Platform) : Machine → List Call → Except Fault (List Response × Machine)
  | m, [] => Except.ok ([], m)
  | m, c :: cs =>
    match step P m c with
    | Except.error f => Except.error f
    | Except.ok (r, m1) =>
      match run P m1 cs with
      | Except.error f => Except.error f
      | Except.ok (rs, m2) => Except.ok (r :: rs, m2)

/-! ## Specification-side notions: cursors and qualifying entries -/

/-- The position from which `CertEnumCertificatesInStore` continues after `prev`. -/
def start_index : PCCERT_CONTEXT → Nat
  | none => 0
  | some i => i + 1

/-- The certificate contexts of the opened store (none for a NULL store handle). -/
def store_certs (m : Machine) : List CERT_CONTEXT :=
  m.store_ctx.windows_certificate_store.getD []

/-- The key handle of a qualifying entry (glossary of the specification): the
acquisition succeeded, the key specifier is `CERT_NCRYPT_KEY_SPEC`, the caller
must free the handle, and the handle classifies to an algorithm name. -/
def qualifying_handle (P : Platform) (c : CERT_CONTEXT) : Option NCRYPT_KEY_HANDLE :=
  match c.private_key with
  | none => none
  | some k =>
    if k.key_spec = CERT_NCRYPT_KEY_SPEC ∧ k.caller_must_free = true ∧
        (get_key_algorithm_name P k.handle).isSome then some k.handle
    else none

/-- The first qualifying entry of `certs`, whose head has position `s`: its
position and key handle. -/
def scan (P : Platform) : List CERT_CONTEXT → Nat → Option (Nat × NCRYPT_KEY_HANDLE)
  | [], _ => none
  | c :: cs, s =>
    match qualifying_handle P c with
    | some h => some (s, h)
    | none => scan P cs (s + 1)

/-- The state in which the skip loop leaves `m` when it accepts entry `j` with
handle `h`, having appended the events `new`. -/
def key_found (m : Machine) (new : List Event) (j : Nat) (h : NCRYPT_KEY_HANDLE) : Machine :=
  { store_ctx := { m.store_ctx with
      prev_key_cert_ctx := some j, priv_key_store_eof := false,
      key := { windows_key_handle := some h } },
    trace := m.trace ++ new }

/-- The state of `m` after one rejected iteration of the skip loop on entry `s`. -/
def key_skipped (m : Machine) (s : Nat) (acq : Option AcquiredKey)
    (tmp : Option NCRYPT_KEY_HANDLE) : Machine :=
  { store_ctx := { m.store_ctx with prev_key_cert_ctx := some s, priv_key_store_eof := false },
    trace := m.trace ++ [Event.CertEnumCertificatesInStore m.store_ctx.prev_key_cert_ctx (some s),
      Event.CryptAcquireCertificatePrivateKey s acq, Event.NCryptFreeObject tmp] }

/-- The state in which the skip loop leaves `m` when the store is exhausted. -/
def key_exhausted (m : Machine) (new : List Event) : Machine :=
  { store_ctx := { m.store_ctx with prev_key_cert_ctx := none, priv_key_store_eof := true },
    trace := m.trace ++ new }

/-- The state after `load_another_cert` has handed certificate `c` to the
callback and advanced the certificate sub-cursor. -/
def cert_advanced (m : Machine) (object_cb : OSSL_CALLBACK) (c : CERT_CONTEXT) : Machine :=
  { store_ctx := { m.store_ctx with
      prev_cert_ctx := CertEnumCertificatesInStore m.store_ctx.windows_certificate_store
        m.store_ctx.prev_cert_ctx,
      cert_store_eof :=
        if (CertEnumCertificatesInStore m.store_ctx.windows_certificate_store
          m.store_ctx.prev_cert_ctx).isNone then true else m.store_ctx.cert_store_eof },
    trace := m.trace ++ [Event.object_cb (OSSL_OBJECT.CERT c.pbCertEncoded)
        (object_cb (OSSL_OBJECT.CERT c.pbCertEncoded)),
      Event.CertEnumCertificatesInStore m.store_ctx.prev_cert_ctx
        (CertEnumCertificatesInStore m.store_ctx.windows_certificate_store
          m.store_ctx.prev_cert_ctx)] }

/-- The private-key object `load_another_private_key` builds in state `m`. -/
def pkey_object (P : Platform) (m : Machine) : OSSL_OBJECT :=
  OSSL_OBJECT.PKEY (m.store_ctx.key.windows_key_handle.bind (get_key_algorithm_name P))
    m.store_ctx.key

/-- The state after the private-key object of `m` has been handed to the callback. -/
def key_offered (P : Platform) (m : Machine) (object_cb : OSSL_CALLBACK) : Machine :=
  { m with trace := m.trace ++
      [Event.object_cb (pkey_object P m) (object_cb (pkey_object P m))] }

/-- The response to a load that hands over certificate `c`. -/
def cert_response (c : CERT_CONTEXT) : Response :=
  { ret := 1, objects := [OSSL_OBJECT.CERT c.pbCertEncoded] }

/-- The response to a load that hands over the key with handle `h`. -/
def pkey_response (h : NCRYPT_KEY_HANDLE) : Response :=
  { ret := 1, objects := [OSSL_OBJECT.PKEY (some "rsaEncryption") { windows_key_handle := some h }] }

/-- The key sub-cursor is primed on the first qualifying entry at or after
position `s`, or exhausted when there is none. -/
def KeyCursorAt (P : Platform) (certs : List CERT_CONTEXT) (ctx : T_CNG_STORE_CTX)
    (s : Nat) : Prop :=
  match scan P (certs.drop s) s with
  | some (j, h) =>
    ctx.prev_key_cert_ctx = some j ∧ ctx.priv_key_store_eof = false ∧
      ctx.key = { windows_key_handle := some h }
  | none => ctx.priv_key_store_eof = true

/-- While the certificate sub-cursor is not exhausted, `prev_cert_ctx` points at
a certificate of the store. -/
def CertPointerValid (m : Machine) : Prop :=
  m.store_ctx.cert_store_eof = false →
    ∃ c, deref m.store_ctx.windows_certificate_store m.store_ctx.prev_cert_ctx = some c

/-! ## Specification-side notions: the addressing scheme -/

/-- The name token of the text after the scheme: the text before the first '@'
(the whole text when there is none). -/
def uri_name_token (rest : CString) : CString := rest.takeWhile (fun x => x != 64)

/-- The location token of the text after the scheme: the text after the first '@'. -/
def uri_location_token (rest : CString) : CString :=
  (rest.dropWhile (fun x => x != 64)).drop 1

/-- Equality of two strings ignoring ASCII case. -/
def eq_ignore_case (a b : CString) : Prop := a.map tolower = b.map tolower

instance eq_ignore_case_decidable (a b : CString) : Decidable (eq_ignore_case a b) := by
  unfold eq_ignore_case; infer_instance

/-- The name token is one of CA, MY, ROOT, ignoring ASCII case. -/
def known_store_name (tok : CString) : Prop :=
  eq_ignore_case tok (cstr "CA") ∨ eq_ignore_case tok (cstr "MY") ∨
    eq_ignore_case tok (cstr "ROOT")

instance known_store_name_decidable (tok : CString) : Decidable (known_store_name tok) := by
  unfold known_store_name; infer_instance

/-- The location token is one of localmachine, currentuser, ignoring ASCII case. -/
def known_location (tok : CString) : Prop :=
  eq_ignore_case tok (cstr "localmachine") ∨ eq_ignore_case tok (cstr "currentuser")

instance known_location_decidable (tok : CString) : Decidable (known_location tok) := by
  unfold known_location; infer_instance

/-- The canonical name of a known store-name token. -/
def canonical_store_name (tok : CString) : Option String :=
  if eq_ignore_case tok (cstr "CA") then some "CA"
  else if eq_ignore_case tok (cstr "MY") then some "MY"
  else if eq_ignore_case tok (cstr "ROOT") then some "ROOT"
  else none

/-- The addressing scheme as the specification words it (section 4.1): scheme,
then the name token matched case-insensitively against CA, MY, ROOT, then, if
an '@' is present, the location token matched case-insensitively against
localmachine and currentuser; without '@' the location is the current user. -/
def parse_spec (ctx : T_CNG_STORE_CTX) (uri : CString) : ParseOutcome :=
  if uri.take 6 ≠ cstr "cng://" then
    { ret := 0, failure := some ParseError.InvalidScheme, store_ctx := ctx }
  else
    match canonical_store_name (uri_name_token (uri.drop 6)) with
    | none => { ret := 0, failure := some ParseError.UnknownStoreName, store_ctx := ctx }
    | some name =>
      if 64 ∉ uri.drop 6 then
        { ret := 1, failure := none,
          store_ctx := { ctx with
            windows_system_store_name := some name,
            store_location_flag := some CERT_SYSTEM_STORE_CURRENT_USER } }
      else if eq_ignore_case (uri_location_token (uri.drop 6)) (cstr "localmachine") then
        { ret := 1, failure := none,
          store_ctx := { ctx with
            windows_system_store_name := some name,
            store_location_flag := some CERT_SYSTEM_STORE_LOCAL_MACHINE } }
      else if eq_ignore_case (uri_location_token (uri.drop 6)) (cstr "currentuser") then
        { ret := 1, failure := none,
          store_ctx := { ctx with
            windows_system_store_name := some name,
            store_location_flag := some CERT_SYSTEM_STORE_CURRENT_USER } }
      else
        { ret := 0, failure := some ParseError.UnknownLocation,
          store_ctx := { ctx with
            windows_system_store_name := some name,
            store_location_flag := some CERT_SYSTEM_STORE_CURRENT_USER } }

/-! ## Key handles acquired and released in a trace -/

/-- The key handles that `CryptAcquireCertificatePrivateKey` handed out in a trace. -/
def acquired_handles : List Event → List NCRYPT_KEY_HANDLE
  | [] => []
  | Event.CryptAcquireCertificatePrivateKey _ (some k) :: es => k.handle :: acquired_handles es
  | _ :: es => acquired_handles es

/-- The key handles released in a trace, by `NCryptFreeObject` on a handle or by
`cng_keymgmt_free` on a key object that holds one. -/
def released_handles : List Event → List NCRYPT_KEY_HANDLE
  | [] => []
  | Event.NCryptFreeObject (some h) :: es => h :: released_handles es
  | Event.cng_keymgmt_free { windows_key_handle := some h } :: es => h :: released_handles es
  | _ :: es => released_handles es

/-- The acquired key handles not yet released. -/
def live_handles (tr : List Event) : List NCRYPT_KEY_HANDLE :=
  (acquired_handles tr).diff (released_handles tr)

/-! ## Whole sessions -/

/-- The responses of a session: `cng_store_open`, then the calls in order
(`none` when `cng_store_open` returns NULL). -/
def open_and_run (P : Platform) (provctx : Option Nat) (uri : Option CString)
    (calls : List Call) : Except Fault (Option (List Response)) :=
  match cng_store_open P provctx uri with
  | Except.error f => Except.error f
  | Except.ok (none, _) => Except.ok none
  | Except.ok (some ctx, tr) =>
    match run P { store_ctx := ctx, trace := tr } calls with
    | Except.error f => Except.error f
    | Except.ok (rs, _) => Except.ok (some rs)

/-- The trace of a session: `cng_store_open`, then the calls in order (`none`
when `cng_store_open` returns NULL). -/
def open_and_run_state (P : Platform) (provctx : Option Nat) (uri : Option CString)
    (calls : List Call) : Except Fault (Option Machine) :=
  match cng_store_open P provctx uri with
  | Except.error f => Except.error f
  | Except.ok (none, _) => Except.ok none
  | Except.ok (some ctx, tr) =>
    match run P { store_ctx := ctx, trace := tr } calls with
    | Except.error f => Except.error f
    | Except.ok (_, m) => Except.ok (some m)

/-! ## Fake platforms and sessions -/

/-- A fake platform: the store "MY" of the current user holds a certificate with
a qualifying RSA key (handle 7) and a certificate without private key; every
other store fails to open. -/
def example_platform : Platform :=
  { CertOpenStore := fun flag name =>
      if flag = CERT_SYSTEM_STORE_CURRENT_USER ∧ name = "MY" then
        some [ { pbCertEncoded := [48, 1],
                 private_key := some { handle := 7, key_spec := CERT_NCRYPT_KEY_SPEC,
                                       caller_must_free := true } },
               { pbCertEncoded := [48, 2], private_key := none } ]
      else none,
    CertCloseStore := fun _ => true,
    NCryptGetProperty := fun _ =>
      { size_status := 0, malloc_ok := true, read_status := 0,
        value := NCRYPT_RSA_ALGORITHM_GROUP },
    malloc_store_ctx_ok := true,
    cng_keymgmt_new_ok := true }

/-- The certificates of the store "MY" of `example_platform`. -/
def example_certs : List CERT_CONTEXT :=
  [ { pbCertEncoded := [48, 1],
      private_key := some { handle := 7, key_spec := CERT_NCRYPT_KEY_SPEC,
                            caller_must_free := true } },
    { pbCertEncoded := [48, 2], private_key := none } ]

/-- The session `cng_store_open` returns for "cng://MY" on `example_platform`. -/
def example_session : Machine :=
  { store_ctx :=
      { windows_certificate_store := some example_certs,
        store_location_flag := some CERT_SYSTEM_STORE_CURRENT_USER,
        windows_system_store_name := some "MY",
        prev_cert_ctx := some 0,
        prev_key_cert_ctx := some 0,
        cert_store_eof := false,
        priv_key_store_eof := false,
        key := { windows_key_handle := some 7 },
        expected_parameter_type := none },
    trace :=
      [Event.malloc_store_ctx true, Event.cng_keymgmt_new true,
       Event.CertOpenStore CERT_SYSTEM_STORE_CURRENT_USER "MY" true,
       Event.CertEnumCertificatesInStore none (some 0),
       Event.CertEnumCertificatesInStore none (some 0),
       Event.CryptAcquireCertificatePrivateKey 0
         (some { handle := 7, key_spec := CERT_NCRYPT_KEY_SPEC, caller_must_free := true })] }

/-- The example session after its two certificates have been loaded. -/
def example_session_keys : Machine :=
  { example_session with
    store_ctx := { example_session.store_ctx with prev_cert_ctx := none, cert_store_eof := true } }

/-- A fake platform whose store "MY" of the current user holds two certificates,
each with a qualifying RSA key (handles 7 and 9). -/
def two_key_platform : Platform :=
  { example_platform with
    CertOpenStore := fun flag name =>
      if flag = CERT_SYSTEM_STORE_CURRENT_USER ∧ name = "MY" then
        some [ { pbCertEncoded := [48, 1],
                 private_key := some { handle := 7, key_spec := CERT_NCRYPT_KEY_SPEC,
                                       caller_must_free := true } },
               { pbCertEncoded := [48, 2],
                 private_key := some { handle := 9, key_spec := CERT_NCRYPT_KEY_SPEC,
                                       caller_must_free := true } } ]
      else none }

/-! ## Resources, the skip loop's events, and further notions -/

/-- The resources a session can hold. -/
inductive Resource where
  | session_memory
  | key_object
  | store_handle
  | key_handle (h : NCRYPT_KEY_HANDLE)
deriving DecidableEq, Repr

/-- The effect of one event on the resources that are live. -/
def resource_step (live : List Resource) : Event → List Resource
  | Event.malloc_store_ctx true => live ++ [Resource.session_memory]
  | Event.free_store_ctx => live.erase Resource.session_memory
  | Event.cng_keymgmt_new true => live ++ [Resource.key_object]
  | Event.cng_keymgmt_free { windows_key_handle := some h } =>
    (live.erase Resource.key_object).erase (Resource.key_handle h)
  | Event.cng_keymgmt_free { windows_key_handle := none } => live.erase Resource.key_object
  | Event.CertOpenStore _ _ true => live ++ [Resource.store_handle]
  | Event.CertCloseStore true => live.erase Resource.store_handle
  | Event.CryptAcquireCertificatePrivateKey _ (some k) => live ++ [Resource.key_handle k.handle]
  | Event.NCryptFreeObject (some h) => live.erase (Resource.key_handle h)
  | _ => live

/-- The resources acquired and not released in a trace. -/
def live_resources (tr : List Event) : List Resource := tr.foldl resource_step []

/-- The traces of a failed `cng_store_open`: nothing acquired; a failed
allocation of the session; the session freed after `cng_keymgmt_new` failed;
the key object, then the session, freed after the parser failed; the same
after the store failed to open. -/
def open_failure_trace (tr : List Event) : Prop :=
  tr = [] ∨ tr = [Event.malloc_store_ctx false] ∨
    tr = [Event.malloc_store_ctx true, Event.cng_keymgmt_new false, Event.free_store_ctx] ∨
    tr = [Event.malloc_store_ctx true, Event.cng_keymgmt_new true,
      Event.cng_keymgmt_free cng_keymgmt_new_keydata, Event.free_store_ctx] ∨
    ∃ flag name, tr = [Event.malloc_store_ctx true, Event.cng_keymgmt_new true,
      Event.CertOpenStore flag name false,
      Event.cng_keymgmt_free cng_keymgmt_new_keydata, Event.free_store_ctx]

/-- The events of one run of the skip loop over the entries `rest` that follow
the key sub-cursor, the head of `rest` having position `s` and `prev` being the
pointer the enumeration continues from: per entry a fetch and an acquisition,
and for a rejected entry the `NCryptFreeObject` call on what the acquisition
wrote to `tmp_key_handle`; a last fetch when the store is exhausted. -/
def skip_events (P : Platform) : List CERT_CONTEXT → Nat → PCCERT_CONTEXT → List Event
  | [], _, prev => [Event.CertEnumCertificatesInStore prev none]
  | c :: cs, s, prev =>
    Event.CertEnumCertificatesInStore prev (some s) ::
    Event.CryptAcquireCertificatePrivateKey s c.private_key ::
    (match qualifying_handle P c with
     | some _ => []
     | none =>
       Event.NCryptFreeObject (c.private_key.map (fun k => k.handle)) ::
         skip_events P cs (s + 1) (some s))

/-- The number of fetches from the platform enumerator in a trace. -/
def fetch_count : List Event → Nat
  | [] => 0
  | Event.CertEnumCertificatesInStore _ _ :: es => fetch_count es + 1
  | _ :: es => fetch_count es

/-- The four acceptance conditions on a store entry: the acquisition succeeded,
the key specifier is `CERT_NCRYPT_KEY_SPEC`, the caller must free the handle,
and `get_key_algorithm_name` returns a name for the handle. -/
def four_conditions (P : Platform) (c : CERT_CONTEXT) : Prop :=
  ∃ k, c.private_key = some k ∧ k.key_spec = CERT_NCRYPT_KEY_SPEC ∧
    k.caller_must_free = true ∧ get_key_algorithm_name P k.handle ≠ none

/-- Entry `j` is the first entry at or after position `s` that meets the four
acceptance conditions. -/
def first_accepted (P : Platform) (certs : List CERT_CONTEXT) (s j : Nat) : Prop :=
  s ≤ j ∧ (∃ c, certs.get? j = some c ∧ four_conditions P c) ∧
    ∀ i c, s ≤ i → i < j → certs.get? i = some c → ¬ four_conditions P c

/-- The size query for the algorithm group of a key succeeds. -/
def size_query_succeeds (P : Platform) (key : NCRYPT_KEY_HANDLE) : Prop :=
  (P.NCryptGetProperty key).size_status = ERROR_SUCCESS

/-- The read query for the algorithm group of a key is issued (the size query
succeeded and the buffer was allocated) and succeeds. -/
def read_query_succeeds (P : Platform) (key : NCRYPT_KEY_HANDLE) : Prop :=
  (P.NCryptGetProperty key).size_status = ERROR_SUCCESS ∧
    (P.NCryptGetProperty key).malloc_ok = true ∧
    (P.NCryptGetProperty key).read_status = ERROR_SUCCESS

/-- The session `m` with its expected-object-kind hint replaced by `e`. -/
def with_hint (e : Option Int) (m : Machine) : Machine :=
  { m with store_ctx := { m.store_ctx with expected_parameter_type := e } }

/-- A call other than a parameter setting. -/
def load_or_eof : Call → Prop
  | Call.load _ => True
  | Call.eof => True
  | Call.set_ctx_params _ => False

/-- The invariant of an open session on the store `certs`: the certificate
sub-cursor is either active with `prev_cert_ctx` on a certificate of the store,
or exhausted with a null `prev_cert_ctx`; the key sub-cursor is primed on the
first qualifying entry from some position on, or exhausted. -/
def SessionInvariant (P : Platform) (certs : List CERT_CONTEXT) (m : Machine) : Prop :=
  m.store_ctx.windows_certificate_store = some certs ∧
  ((m.store_ctx.cert_store_eof = false ∧
      ∃ i, m.store_ctx.prev_cert_ctx = some i ∧ i < certs.length) ∨
    (m.store_ctx.cert_store_eof = true ∧ m.store_ctx.prev_cert_ctx = none)) ∧
  ∃ s, KeyCursorAt P certs m.store_ctx s

/-- The driver loop of the host, `while (!eof) load`, with the callback
`object_cb`, run for at most `fuel` iterations: the responses of its loads. -/
def drive (P : Platform) (object_cb : OSSL_CALLBACK) :
    Nat → Machine → Except Fault (List Response × Machine)
  | 0, _ => Except.error Fault.loop_bound
  | fuel + 1, m =>
    if cng_store_eof m ≠ 0 then Except.ok ([], m)
    else
      match step P m (Call.load object_cb) with
      | Except.error f => Except.error f
      | Except.ok (r, m1) =>
        match drive P object_cb fuel m1 with
        | Except.error f => Except.error f
        | Except.ok (rs, m2) => Except.ok (r :: rs, m2)

/-! ## Lemmas on the skip loop -/

theorem enum_eq (store : Option HCERTSTORE) (prev : PCCERT_CONTEXT) :
    CertEnumCertificatesInStore store prev =
      if start_index prev < (store.getD []).length then some (start_index prev) else none := by
  cases store <;> cases prev <;> simp [CertEnumCertificatesInStore, start_index]

theorem deref_eq (store : Option HCERTSTORE) (i : Nat) :
    deref store (some i) = (store.getD []).get? i := by
  cases store <;> simp [deref]

theorem emitted_append (a b : List Event) : emitted (a ++ b) = emitted a ++ emitted b := by
  induction a with
  | nil => rfl
  | cons e es ih => cases e <;> simp [emitted, ih]

theorem privkey_loop_spec (P : Platform) : ∀ (fuel : Nat) (m : Machine),
    m.store_ctx.priv_key_store_eof = false →
    (store_certs m).length - start_index m.store_ctx.prev_key_cert_ctx + 1 ≤ fuel →
    ∃ new, emitted new = [] ∧ privkey_loop P fuel m = Except.ok
      (match scan P ((store_certs m).drop (start_index m.store_ctx.prev_key_cert_ctx))
          (start_index m.store_ctx.prev_key_cert_ctx) with
       | some (j, h) => (1, key_found m new j h)
       | none => (0, key_exhausted m new)) := by
  intro fuel
  induction fuel with
  | zero => intro m _ h; omega
  | succ fuel ih =>
    intro m heof hfuel
    unfold privkey_loop
    simp only [heof, Bool.false_eq_true, if_false]
    rw [enum_eq]
    by_cases hlt : start_index m.store_ctx.prev_key_cert_ctx < (store_certs m).length
    · have hstore : store_certs m = m.store_ctx.windows_certificate_store.getD [] := rfl
      rw [← hstore]
      simp only [hlt, if_true]
      obtain ⟨c, rest, hdrop⟩ : ∃ c rest, (store_certs m).drop
          (start_index m.store_ctx.prev_key_cert_ctx) = c :: rest := by
        cases hd : (store_certs m).drop (start_index m.store_ctx.prev_key_cert_ctx) with
        | nil => simp at hd; omega
        | cons c rest => exact ⟨c, rest, rfl⟩
      have hget : (store_certs m).get? (start_index m.store_ctx.prev_key_cert_ctx) = some c := by
        rw [List.get?_eq_getElem?, ← List.head?_drop, hdrop]; rfl
      have hrest : (store_certs m).drop (start_index m.store_ctx.prev_key_cert_ctx + 1) = rest := by
        have := List.drop_drop 1 (start_index m.store_ctx.prev_key_cert_ctx) (store_certs m)
        rw [hdrop] at this
        simpa [Nat.add_comm] using this.symm
      rw [deref_eq, ← hstore, hget, hdrop]
      have reject : ∀ tmp, qualifying_handle P c = none →
          ∃ new, emitted new = [] ∧ privkey_loop P fuel
            (key_skipped m (start_index m.store_ctx.prev_key_cert_ctx) c.private_key tmp) =
            Except.ok
            (match scan P (c :: rest) (start_index m.store_ctx.prev_key_cert_ctx) with
             | some (j, h) => (1, key_found m new j h)
             | none => (0, key_exhausted m new)) := by
        intro tmp hq
        obtain ⟨new, hnew, hrun⟩ := ih
          (key_skipped m (start_index m.store_ctx.prev_key_cert_ctx) c.private_key tmp) rfl
          (by show (store_certs m).length - (start_index m.store_ctx.prev_key_cert_ctx + 1) + 1 ≤ fuel; omega)
        refine ⟨[Event.CertEnumCertificatesInStore m.store_ctx.prev_key_cert_ctx
                (some (start_index m.store_ctx.prev_key_cert_ctx)),
              Event.CryptAcquireCertificatePrivateKey
                (start_index m.store_ctx.prev_key_cert_ctx) c.private_key,
              Event.NCryptFreeObject tmp] ++ new, ?_, ?_⟩
        · simp [emitted_append, emitted, hnew]
        · rw [hrun]
          have hs : store_certs (key_skipped m (start_index m.store_ctx.prev_key_cert_ctx)
              c.private_key tmp) = store_certs m := rfl
          have hp : (key_skipped m (start_index m.store_ctx.prev_key_cert_ctx)
              c.private_key tmp).store_ctx.prev_key_cert_ctx =
              some (start_index m.store_ctx.prev_key_cert_ctx) := rfl
          rw [hs, hp]
          have hsi : start_index (some (start_index m.store_ctx.prev_key_cert_ctx)) =
              start_index m.store_ctx.prev_key_cert_ctx + 1 := rfl
          rw [hsi, hrest]
          simp only [scan, hq]
          cases scan P rest (start_index m.store_ctx.prev_key_cert_ctx + 1) with
          | none => simp [key_exhausted, key_skipped, List.append_assoc]
          | some jh => simp [key_found, key_skipped, List.append_assoc]
      simp only [Option.some_bind, Option.isNone_some]
      cases hk : c.private_key with
      | none =>
        have hq : qualifying_handle P c = none := by simp [qualifying_handle, hk]
        simpa [hk, key_skipped] using reject none hq
      | some k =>
        simp only []
        by_cases hspec : k.key_spec ≠ CERT_NCRYPT_KEY_SPEC ∨ k.caller_must_free ≠ true
        · have hq : qualifying_handle P c = none := by
            simp only [qualifying_handle, hk]
            rw [if_neg]
            intro h; rcases hspec with h1 | h1
            · exact h1 h.1
            · exact h1 h.2.1
          rw [if_pos hspec]
          simpa [hk, key_skipped] using reject (some k.handle) hq
        · rw [if_neg hspec]
          cases hname : get_key_algorithm_name P k.handle with
          | none =>
            have hq : qualifying_handle P c = none := by
              simp [qualifying_handle, hk, hname]
            simpa [hk, key_skipped] using reject (some k.handle) hq
          | some nm =>
            have hq : qualifying_handle P c = some k.handle := by
              simp only [qualifying_handle, hk]
              rw [if_pos]
              push_neg at hspec
              exact ⟨hspec.1, hspec.2, by simp [hname]⟩
            refine ⟨[Event.CertEnumCertificatesInStore m.store_ctx.prev_key_cert_ctx
                (some (start_index m.store_ctx.prev_key_cert_ctx))] ++
              [Event.CryptAcquireCertificatePrivateKey
                (start_index m.store_ctx.prev_key_cert_ctx) (some k)], ?_, ?_⟩
            · simp [emitted]
            · simp [scan, hq, key_found, List.append_assoc]
    · have hstore : store_certs m = m.store_ctx.windows_certificate_store.getD [] := rfl
      rw [← hstore]
      simp only [hlt, if_false]
      have hdrop : (store_certs m).drop (start_index m.store_ctx.prev_key_cert_ctx) = [] := by
        simp; omega
      rw [hdrop]
      exact ⟨[Event.CertEnumCertificatesInStore m.store_ctx.prev_key_cert_ctx none], rfl, rfl⟩

theorem store_size_eq (m : Machine) : store_size m = (store_certs m).length := by
  unfold store_size store_certs
  cases m.store_ctx.windows_certificate_store <;> rfl

/-- The advance function on a state whose key sub-cursor is active. -/
theorem load_privkey_spec (P : Platform) (m : Machine)
    (heof : m.store_ctx.priv_key_store_eof = false) :
    ∃ new, emitted new = [] ∧ load_another_privkey_from_store_into_context P m = Except.ok
      (match scan P ((store_certs m).drop (start_index m.store_ctx.prev_key_cert_ctx))
          (start_index m.store_ctx.prev_key_cert_ctx) with
       | some (j, h) => (1, key_found m new j h)
       | none => (0, key_exhausted m new)) := by
  unfold load_another_privkey_from_store_into_context
  apply privkey_loop_spec P _ m heof
  rw [store_size_eq]; omega

theorem load_privkey_eof (P : Platform) (m : Machine)
    (heof : m.store_ctx.priv_key_store_eof = true) :
    load_another_privkey_from_store_into_context P m = Except.ok (0, m) := by
  unfold load_another_privkey_from_store_into_context privkey_loop
  simp [heof]

/-- What the skip loop leaves untouched, and that it always returns. -/
theorem load_privkey_frame (P : Platform) (m : Machine) :
    ∃ r m1 new, load_another_privkey_from_store_into_context P m = Except.ok (r, m1) ∧
      m1.trace = m.trace ++ new ∧ emitted new = [] ∧
      m1.store_ctx.windows_certificate_store = m.store_ctx.windows_certificate_store ∧
      m1.store_ctx.prev_cert_ctx = m.store_ctx.prev_cert_ctx ∧
      m1.store_ctx.cert_store_eof = m.store_ctx.cert_store_eof ∧
      m1.store_ctx.expected_parameter_type = m.store_ctx.expected_parameter_type ∧
      (m.store_ctx.priv_key_store_eof = true → m1.store_ctx.priv_key_store_eof = true) := by
  cases heof : m.store_ctx.priv_key_store_eof with
  | true =>
    exact ⟨0, m, [], load_privkey_eof P m heof, by simp, rfl, rfl, rfl, rfl, rfl, fun _ => heof⟩
  | false =>
    obtain ⟨new, hnew, hrun⟩ := load_privkey_spec P m heof
    cases hsc : scan P ((store_certs m).drop (start_index m.store_ctx.prev_key_cert_ctx))
        (start_index m.store_ctx.prev_key_cert_ctx) with
    | none =>
      rw [hsc] at hrun
      exact ⟨0, key_exhausted m new, new, hrun, rfl, hnew, rfl, rfl, rfl, rfl, fun h => by simp at h⟩
    | some jh =>
      rw [hsc] at hrun
      exact ⟨1, key_found m new jh.1 jh.2, new, hrun, rfl, hnew, rfl, rfl, rfl, rfl,
        fun h => by simp at h⟩

/-! ## Lemmas on single loads -/

theorem emitted_drop (a new : List Event) :
    emitted ((a ++ new).drop a.length) = emitted new := by
  simp

/-- A load while the certificate sub-cursor points at a certificate `c`. -/
theorem load_cert_step (P : Platform) (m : Machine) (cb : OSSL_CALLBACK) (c : CERT_CONTEXT)
    (heof : m.store_ctx.cert_store_eof = false)
    (hd : deref m.store_ctx.windows_certificate_store m.store_ctx.prev_cert_ctx = some c) :
    cng_store_load P m cb = Except.ok (1, cert_advanced m cb c) ∧
    step P m (Call.load cb) =
      Except.ok ({ ret := 1, objects := [OSSL_OBJECT.CERT c.pbCertEncoded] },
        cert_advanced m cb c) := by
  have h1 : cng_store_load P m cb = Except.ok (1, cert_advanced m cb c) := by
    simp [cng_store_load, heof, load_another_cert, hd, cert_advanced]
  refine ⟨h1, ?_⟩
  simp only [step, h1]
  simp [cert_advanced, emitted]

/-- The position the certificate sub-cursor moves to from certificate `i`. -/
theorem cert_advanced_ctx (m : Machine) (cb : OSSL_CALLBACK) (c : CERT_CONTEXT)
    (certs : List CERT_CONTEXT) (i : Nat)
    (hs : m.store_ctx.windows_certificate_store = some certs)
    (heof : m.store_ctx.cert_store_eof = false)
    (hp : m.store_ctx.prev_cert_ctx = some i) :
    (cert_advanced m cb c).store_ctx = { m.store_ctx with
        prev_cert_ctx := if i + 1 < certs.length then some (i + 1) else none,
        cert_store_eof := decide (¬ i + 1 < certs.length) } := by
  simp only [cert_advanced, hs, hp, CertEnumCertificatesInStore, heof]
  by_cases h : i + 1 < certs.length <;> simp [h]

/-- A load on the key sub-cursor whose object the callback accepts. -/
theorem load_key_step (P : Platform) (m : Machine) (cb : OSSL_CALLBACK)
    (hc : m.store_ctx.cert_store_eof = true)
    (hk : m.store_ctx.priv_key_store_eof = false)
    (hacc : cb (pkey_object P m) ≠ 0) :
    ∃ new, emitted new = [] ∧
      cng_store_load P m cb = Except.ok (1,
        match scan P ((store_certs m).drop (start_index m.store_ctx.prev_key_cert_ctx))
          (start_index m.store_ctx.prev_key_cert_ctx) with
        | some (j, h) => key_found (key_offered P m cb) new j h
        | none => key_exhausted (key_offered P m cb) new) ∧
      step P m (Call.load cb) = Except.ok ({ ret := 1, objects := [pkey_object P m] },
        match scan P ((store_certs m).drop (start_index m.store_ctx.prev_key_cert_ctx))
          (start_index m.store_ctx.prev_key_cert_ctx) with
        | some (j, h) => key_found (key_offered P m cb) new j h
        | none => key_exhausted (key_offered P m cb) new) := by
  obtain ⟨new, hnew, hrun⟩ := load_privkey_spec P (key_offered P m cb) hk
  have h1 : cng_store_load P m cb = Except.ok (1,
        match scan P ((store_certs m).drop (start_index m.store_ctx.prev_key_cert_ctx))
          (start_index m.store_ctx.prev_key_cert_ctx) with
        | some (j, h) => key_found (key_offered P m cb) new j h
        | none => key_exhausted (key_offered P m cb) new) := by
    have hacc1 : cb (OSSL_OBJECT.PKEY
      (m.store_ctx.key.windows_key_handle.bind (get_key_algorithm_name P)) m.store_ctx.key) ≠ 0 :=
      hacc
    simp only [cng_store_load, hc, hk, load_another_private_key, hacc1]
    have e : ({ m with trace := m.trace ++ [Event.object_cb (OSSL_OBJECT.PKEY
      (m.store_ctx.key.windows_key_handle.bind (get_key_algorithm_name P)) m.store_ctx.key)
      (cb (OSSL_OBJECT.PKEY
      (m.store_ctx.key.windows_key_handle.bind (get_key_algorithm_name P)) m.store_ctx.key))] }
      : Machine) = key_offered P m cb := rfl
    simp only [Bool.not_true, Bool.false_eq_true, if_false, Bool.not_false, if_true, e, hrun]
    have e1 : store_certs (key_offered P m cb) = store_certs m := rfl
    have e2 : (key_offered P m cb).store_ctx.prev_key_cert_ctx =
      m.store_ctx.prev_key_cert_ctx := rfl
    rw [e1, e2]
    cases scan P ((store_certs m).drop (start_index m.store_ctx.prev_key_cert_ctx))
      (start_index m.store_ctx.prev_key_cert_ctx) <;> rfl
  refine ⟨new, hnew, h1, ?_⟩
  simp only [step, h1]
  cases scan P ((store_certs m).drop (start_index m.store_ctx.prev_key_cert_ctx))
      (start_index m.store_ctx.prev_key_cert_ctx) with
  | none => simp [key_exhausted, key_offered, emitted, emitted_append, hnew]
  | some jh => simp [key_found, key_offered, emitted, emitted_append, hnew]

/-- A load on the key sub-cursor whose object the callback rejects. -/
theorem load_key_rejected (P : Platform) (m : Machine) (cb : OSSL_CALLBACK)
    (hc : m.store_ctx.cert_store_eof = true)
    (hk : m.store_ctx.priv_key_store_eof = false)
    (hrej : cb (pkey_object P m) = 0) :
    cng_store_load P m cb = Except.ok (0, key_offered P m cb) := by
  have hrej1 : cb (OSSL_OBJECT.PKEY
      (m.store_ctx.key.windows_key_handle.bind (get_key_algorithm_name P)) m.store_ctx.key) = 0 :=
    hrej
  simp [cng_store_load, hc, hk, load_another_private_key, hrej1, key_offered, pkey_object]

/-- A load when both sub-cursors are exhausted. -/
theorem load_exhausted (P : Platform) (m : Machine) (cb : OSSL_CALLBACK)
    (hc : m.store_ctx.cert_store_eof = true)
    (hk : m.store_ctx.priv_key_store_eof = true) :
    step P m (Call.load cb) = Except.ok ({ ret := 0, objects := [] }, m) := by
  simp [step, cng_store_load, hc, hk, emitted]

/-! ## Lemmas on sequences of calls -/

theorem run_append (P : Platform) : ∀ (a b : List Call) (m m1 m2 : Machine)
    (rs1 rs2 : List Response),
    run P m a = Except.ok (rs1, m1) → run P m1 b = Except.ok (rs2, m2) →
    run P m (a ++ b) = Except.ok (rs1 ++ rs2, m2) := by
  intro a
  induction a with
  | nil =>
    intro b m m1 m2 rs1 rs2 h1 h2
    simp only [run, Except.ok.injEq, Prod.mk.injEq] at h1
    obtain ⟨rfl, rfl⟩ := h1
    simpa using h2
  | cons c cs ih =>
    intro b m m1 m2 rs1 rs2 h1 h2
    simp only [run, List.cons_append] at h1 ⊢
    cases hs : step P m c with
    | error f => simp [hs] at h1
    | ok r =>
      obtain ⟨r, m'⟩ := r
      simp only [hs] at h1 ⊢
      cases hr : run P m' cs with
      | error f => simp [hr] at h1
      | ok q =>
        obtain ⟨rs, m''⟩ := q
        simp only [hr, Except.ok.injEq, Prod.mk.injEq] at h1
        obtain ⟨rfl, rfl⟩ := h1
        have e := ih b m' m'' m2 rs rs2 hr h2
        show (match run P m' (cs ++ b) with
          | Except.error f => Except.error f
          | Except.ok (rs, m2) => Except.ok (r :: rs, m2)) = _
        rw [e]
        rfl

theorem run_cons (P : Platform) (c : Call) (cs : List Call) (m m1 m2 : Machine)
    (r : Response) (rs : List Response)
    (h1 : step P m c = Except.ok (r, m1)) (h2 : run P m1 cs = Except.ok (rs, m2)) :
    run P m (c :: cs) = Except.ok (r :: rs, m2) := by
  simp [run, h1, h2]

theorem drop_eq_get_cons {α : Type} (l : List α) (i : Nat) (h : i < l.length) :
    l.drop i = l.get ⟨i, h⟩ :: l.drop (i + 1) := by
  simp

/-- Draining the certificate sub-cursor from certificate `i`: every load hands
over one certificate, and the key sub-cursor is left as it was. -/
theorem cert_run (P : Platform) (certs : List CERT_CONTEXT) :
    ∀ (cbs : List OSSL_CALLBACK) (cb : OSSL_CALLBACK) (i : Nat) (m : Machine),
    m.store_ctx.windows_certificate_store = some certs →
    m.store_ctx.cert_store_eof = false →
    m.store_ctx.prev_cert_ctx = some i →
    i + (cbs.length + 1) = certs.length →
    ∃ m1, run P m ((cb :: cbs).map Call.load) =
        Except.ok ((certs.drop i).map cert_response, m1) ∧
      m1.store_ctx = { m.store_ctx with prev_cert_ctx := none, cert_store_eof := true } := by
  intro cbs
  induction cbs with
  | nil =>
    intro cb i m hs heof hp hlen
    simp only [List.length_nil, Nat.zero_add] at hlen
    have hi : i < certs.length := by omega
    have hd : deref m.store_ctx.windows_certificate_store m.store_ctx.prev_cert_ctx =
        some (certs.get ⟨i, hi⟩) := by
      rw [hs, hp]; simp [deref]
    obtain ⟨-, hstep⟩ := load_cert_step P m cb _ heof hd
    refine ⟨cert_advanced m cb (certs.get ⟨i, hi⟩), ?_, ?_⟩
    · rw [List.map_cons, List.map_nil, run_cons P _ [] _ _ _ _ [] hstep rfl]
      rw [drop_eq_get_cons certs i hi]
      have : certs.drop (i + 1) = [] := by
        apply List.drop_eq_nil_of_le; omega
      rw [this]; rfl
    · rw [cert_advanced_ctx m cb _ certs i hs heof hp]
      have : ¬ i + 1 < certs.length := by omega
      simp [this]
  | cons cb2 cbs ih =>
    intro cb i m hs heof hp hlen
    simp only [List.length_cons] at hlen
    have hi : i < certs.length := by omega
    have hd : deref m.store_ctx.windows_certificate_store m.store_ctx.prev_cert_ctx =
        some (certs.get ⟨i, hi⟩) := by
      rw [hs, hp]; simp [deref]
    obtain ⟨-, hstep⟩ := load_cert_step P m cb _ heof hd
    have hctx := cert_advanced_ctx m cb (certs.get ⟨i, hi⟩) certs i hs heof hp
    have hlt : i + 1 < certs.length := by omega
    simp only [hlt, if_true, not_true, decide_False] at hctx
    obtain ⟨m1, hrun, hm1⟩ := ih cb2 (i + 1) (cert_advanced m cb (certs.get ⟨i, hi⟩))
      (by rw [hctx]; exact hs) (by rw [hctx]) (by rw [hctx]) (by omega)
    refine ⟨m1, ?_, ?_⟩
    · rw [List.map_cons, run_cons P _ _ _ _ _ _ _ hstep hrun]
      rw [drop_eq_get_cons certs i hi]
      rfl
    · rw [hm1, hctx]

theorem get_key_algorithm_name_some (P : Platform) (h : NCRYPT_KEY_HANDLE) (s : String)
    (hs : get_key_algorithm_name P h = some s) : s = "rsaEncryption" := by
  unfold get_key_algorithm_name at hs
  simp only at hs
  split_ifs at hs
  simpa using hs.symm

theorem qualifying_handle_name (P : Platform) (c : CERT_CONTEXT) (h : NCRYPT_KEY_HANDLE)
    (hq : qualifying_handle P c = some h) :
    get_key_algorithm_name P h = some "rsaEncryption" := by
  unfold qualifying_handle at hq
  cases hk : c.private_key with
  | none => simp [hk] at hq
  | some k =>
    simp only [hk] at hq
    split_ifs at hq with hc
    simp only [Option.some.injEq] at hq
    subst hq
    obtain ⟨-, -, hn⟩ := hc
    cases hg : get_key_algorithm_name P k.handle with
    | none => simp [hg] at hn
    | some s => rw [get_key_algorithm_name_some P _ s hg]

theorem scan_none (P : Platform) : ∀ (rest : List CERT_CONTEXT) (s : Nat),
    scan P rest s = none → rest.filterMap (qualifying_handle P) = [] := by
  intro rest
  induction rest with
  | nil => intro s _; rfl
  | cons c cs ih =>
    intro s h
    unfold scan at h
    cases hq : qualifying_handle P c with
    | some x => simp [hq] at h
    | none =>
      simp only [hq] at h
      simp [List.filterMap_cons, hq, ih (s + 1) h]

theorem scan_some (P : Platform) : ∀ (rest : List CERT_CONTEXT) (s j : Nat)
    (h : NCRYPT_KEY_HANDLE), scan P rest s = some (j, h) →
    ∃ k, j = s + k ∧
      rest.filterMap (qualifying_handle P) =
        h :: (rest.drop (k + 1)).filterMap (qualifying_handle P) ∧
      get_key_algorithm_name P h = some "rsaEncryption" := by
  intro rest
  induction rest with
  | nil => intro s j h hs; simp [scan] at hs
  | cons c cs ih =>
    intro s j h hs
    unfold scan at hs
    cases hq : qualifying_handle P c with
    | some x =>
      simp only [hq, Option.some.injEq, Prod.mk.injEq] at hs
      obtain ⟨rfl, rfl⟩ := hs
      exact ⟨0, rfl, by simp [List.filterMap_cons, hq], qualifying_handle_name P c x hq⟩
    | none =>
      simp only [hq] at hs
      obtain ⟨k, hj, hf, hn⟩ := ih (s + 1) j h hs
      exact ⟨k + 1, by omega, by simp [List.filterMap_cons, hq, hf], hn⟩

/-- Draining the key sub-cursor with accepting callbacks: one private-key object
per qualifying entry, then a load that returns 0. -/
theorem key_run (P : Platform) (certs : List CERT_CONTEXT) :
    ∀ (hs : List NCRYPT_KEY_HANDLE) (s : Nat) (m : Machine) (cbs : List OSSL_CALLBACK),
    m.store_ctx.windows_certificate_store = some certs →
    m.store_ctx.cert_store_eof = true →
    KeyCursorAt P certs m.store_ctx s →
    hs = (certs.drop s).filterMap (qualifying_handle P) →
    cbs.length = hs.length + 1 →
    (∀ cb ∈ cbs, ∀ o, cb o ≠ 0) →
    ∃ m1, run P m (cbs.map Call.load) =
        Except.ok (hs.map pkey_response ++ [{ ret := 0, objects := [] }], m1) ∧
      m1.store_ctx.cert_store_eof = true ∧ m1.store_ctx.priv_key_store_eof = true := by
  intro hs
  induction hs with
  | nil =>
    intro s m cbs hst hc hcur hhs hlen hacc
    unfold KeyCursorAt at hcur
    cases hsc : scan P (certs.drop s) s with
    | some jh =>
      obtain ⟨k, -, hf, -⟩ := scan_some P _ s jh.1 jh.2 hsc
      rw [hf] at hhs; simp at hhs
    | none =>
      rw [hsc] at hcur
      simp only at hcur
      match cbs, hlen with
      | [cb], _ =>
        refine ⟨m, ?_, hc, hcur⟩
        rw [List.map_cons, List.map_nil, run_cons P _ [] _ _ _ _ [] (load_exhausted P m cb hc hcur) rfl]
        rfl
  | cons h hs ih =>
    intro s m cbs hst hc hcur hhs hlen hacc
    unfold KeyCursorAt at hcur
    cases hsc : scan P (certs.drop s) s with
    | none =>
      rw [scan_none P _ s hsc] at hhs; simp at hhs
    | some jh =>
      obtain ⟨j, h0⟩ := jh
      rw [hsc] at hcur
      simp only at hcur
      obtain ⟨hp, hk, hkey⟩ := hcur
      obtain ⟨k, hj, hf, hn⟩ := scan_some P _ s j h0 hsc
      rw [hf] at hhs
      simp only [List.cons.injEq] at hhs
      obtain ⟨rfl, hhs⟩ := hhs
      match cbs, hlen, hacc with
      | cb :: cbs, hlen, hacc =>
        have hobj : pkey_object P m = OSSL_OBJECT.PKEY (some "rsaEncryption")
            { windows_key_handle := some h } := by
          simp [pkey_object, hkey, hn]
        obtain ⟨new, hnew, -, hstep⟩ := load_key_step P m cb hc hk
          (hacc cb (List.mem_cons_self _ _) _)
        rw [hobj] at hstep
        have hcerts : store_certs m = certs := by simp [store_certs, hst]
        rw [hcerts, hp] at hstep
        have hsi : start_index (some j) = j + 1 := rfl
        rw [hsi] at hstep
        have hdrop : (certs.drop s).drop (k + 1) = certs.drop (j + 1) := by
          rw [List.drop_drop]; congr 1; omega
        rw [hdrop] at hhs
        have hnext : ∃ m2, step P m (Call.load cb) = Except.ok
            ({ ret := 1, objects := [OSSL_OBJECT.PKEY (some "rsaEncryption")
              { windows_key_handle := some h }] }, m2) ∧
            m2.store_ctx.windows_certificate_store = some certs ∧
            m2.store_ctx.cert_store_eof = true ∧
            KeyCursorAt P certs m2.store_ctx (j + 1) := by
          cases hsc2 : scan P (certs.drop (j + 1)) (j + 1) with
          | none =>
            rw [hsc2] at hstep
            exact ⟨_, hstep, hst, hc, by unfold KeyCursorAt; rw [hsc2]; rfl⟩
          | some jh2 =>
            rw [hsc2] at hstep
            exact ⟨_, hstep, hst, hc, by unfold KeyCursorAt; rw [hsc2]; exact ⟨rfl, rfl, rfl⟩⟩
        obtain ⟨m2, hstep2, hst2, hc2, hcur2⟩ := hnext
        obtain ⟨m1, hrun, hm1⟩ := ih (j + 1) m2 cbs hst2 hc2 hcur2
          hhs (by simpa using hlen)
          (fun cb2 hcb2 => hacc cb2 (List.mem_cons_of_mem _ hcb2))
        refine ⟨m1, ?_, hm1⟩
        rw [List.map_cons, run_cons P _ _ _ _ _ _ _ hstep2 hrun]
        rfl

/-! ## Lemmas on `cng_store_open` -/

/-- `parse_uri_from_store_open` writes only the store name and the location flag. -/
theorem parse_frame (ctx : T_CNG_STORE_CTX) (uri : Option CString) :
    (parse_uri_from_store_open ctx uri).store_ctx.windows_certificate_store =
        ctx.windows_certificate_store ∧
      (parse_uri_from_store_open ctx uri).store_ctx.prev_cert_ctx = ctx.prev_cert_ctx ∧
      (parse_uri_from_store_open ctx uri).store_ctx.prev_key_cert_ctx = ctx.prev_key_cert_ctx ∧
      (parse_uri_from_store_open ctx uri).store_ctx.cert_store_eof = ctx.cert_store_eof ∧
      (parse_uri_from_store_open ctx uri).store_ctx.priv_key_store_eof =
        ctx.priv_key_store_eof ∧
      (parse_uri_from_store_open ctx uri).store_ctx.key = ctx.key ∧
      (parse_uri_from_store_open ctx uri).store_ctx.expected_parameter_type =
        ctx.expected_parameter_type := by
  unfold parse_uri_from_store_open
  cases uri with
  | none => simp
  | some u =>
    simp only
    split
    · simp
    · split
      · simp
      · split
        · simp
        · split
          · simp
          · split <;> simp

/-- The state of a session as `cng_store_open` returns it. -/
theorem open_state (P : Platform) (provctx : Option Nat) (uri : Option CString)
    (ctx : T_CNG_STORE_CTX) (tr : List Event)
    (hopen : cng_store_open P provctx uri = Except.ok (some ctx, tr)) :
    ∃ certs, ctx.windows_certificate_store = some certs ∧
      ctx.prev_cert_ctx = (if 0 < certs.length then some 0 else none) ∧
      ctx.cert_store_eof = decide (certs.length = 0) ∧
      KeyCursorAt P certs ctx 0 ∧ emitted tr = [] := by
  simp only [cng_store_open] at hopen
  split_ifs at hopen with h1 h2 h3 h4 h5
  all_goals try (simp at hopen)
  obtain ⟨hw, hpc, hpk, hce, hke, hkey, hexp⟩ := parse_frame init_store_ctx uri
  generalize parse_uri_from_store_open init_store_ctx uri = parsed at *
  unfold initialize_windows_cert_store at hopen h5
  simp only at hopen h5
  cases hstore : P.CertOpenStore (parsed.store_ctx.store_location_flag.getD 0)
      (parsed.store_ctx.windows_system_store_name.getD "") with
  | none => simp [hstore] at h5
  | some certs =>
    simp only [hstore, Option.isSome_some, if_true] at hopen
    obtain ⟨new, hnew, hrun⟩ := load_privkey_spec P (load_another_cert_from_store_into_context
      { store_ctx := { parsed.store_ctx with windows_certificate_store := some certs },
        trace := [Event.malloc_store_ctx true, Event.cng_keymgmt_new true] ++
          [Event.CertOpenStore (parsed.store_ctx.store_location_flag.getD 0)
            (parsed.store_ctx.windows_system_store_name.getD "") true] })
      (by simp [load_another_cert_from_store_into_context, hke, init_store_ctx])
    rw [hrun] at hopen
    refine ⟨certs, ?_⟩
    simp only [load_another_cert_from_store_into_context, store_certs, hpk, init_store_ctx,
      start_index, Option.getD_some, List.drop_zero] at hopen
    unfold KeyCursorAt
    simp only [List.drop_zero]
    cases hsc : scan P certs 0 with
    | none =>
      simp only [hsc, Except.ok.injEq, Prod.mk.injEq, Option.some.injEq] at hopen
      obtain ⟨rfl, rfl⟩ := hopen
      simp [key_exhausted, CertEnumCertificatesInStore, hpc, init_store_ctx, emitted,
        emitted_append, hnew]
      cases certs <;> simp
    | some jh =>
      simp only [hsc, Except.ok.injEq, Prod.mk.injEq, Option.some.injEq] at hopen
      obtain ⟨rfl, rfl⟩ := hopen
      simp [key_found, CertEnumCertificatesInStore, hpc, init_store_ctx, emitted,
        emitted_append, hnew]
      cases certs <;> simp

/-! ## C1, C2, C3: certificates first, then keys -/

theorem example_session_open :
    cng_store_open example_platform (some 1) (some (cstr "cng://MY")) =
      Except.ok (some example_session.store_ctx, example_session.trace) := by
  decide

/-- C1: on a store holding the certificates `certs`, the first `certs.length`
loads after `cng_store_open` each return 1 and each hand exactly one object to
the callback, the CERT object of the i-th certificate on call i, whatever the
callbacks return; no private-key object is handed over, whether or not the
store has qualifying keys. -/
theorem C1_certificates_first (P : Platform) (provctx : Option Nat) (uri : Option CString)
    (ctx : T_CNG_STORE_CTX) (tr : List Event) (certs : List CERT_CONTEXT)
    (cbs : List OSSL_CALLBACK)
    (hopen : cng_store_open P provctx uri = Except.ok (some ctx, tr))
    (hstore : ctx.windows_certificate_store = some certs)
    (hn : 1 ≤ certs.length)
    (hlen : cbs.length = certs.length) :
    ∃ m, run P { store_ctx := ctx, trace := tr } (cbs.map Call.load) =
      Except.ok (certs.map (fun c =>
        { ret := 1, objects := [OSSL_OBJECT.CERT c.pbCertEncoded] }), m) := by
  obtain ⟨certs1, hs, hp, he, -, -⟩ := open_state P provctx uri ctx tr hopen
  rw [hstore] at hs
  simp only [Option.some.injEq] at hs
  subst hs
  match cbs, hlen with
  | cb :: cbs, hlen =>
    have hpos : 0 < certs.length := by omega
    rw [if_pos hpos] at hp
    have hne : ¬ certs.length = 0 := by omega
    simp only [hne, decide_False] at he
    obtain ⟨m1, hrun, -⟩ := cert_run P certs cbs cb 0 { store_ctx := ctx, trace := tr }
      hstore he hp (by simpa [Nat.add_comm] using hlen)
    exact ⟨m1, by simpa [cert_response] using hrun⟩
  | [], hlen => simp at hlen; omega

/-- The example store: two certificates, a rejecting and an accepting callback. -/
theorem C1_certificates_first_witness :
    1 ≤ example_certs.length ∧
    ∃ m, run example_platform example_session
        ([fun _ => 0, fun _ => 1].map Call.load) =
      Except.ok (example_certs.map (fun c =>
        { ret := 1, objects := [OSSL_OBJECT.CERT c.pbCertEncoded] }), m) :=
  ⟨by decide, C1_certificates_first example_platform (some 1) (some (cstr "cng://MY"))
    example_session.store_ctx example_session.trace example_certs [fun _ => 0, fun _ => 1]
    example_session_open rfl (by decide) rfl⟩

/-- C2: with accepting callbacks, the loads that follow the exhaustion of the
certificate sub-cursor hand over private-key objects only, one per qualifying
entry of the store and in store order (the i-th one references the key handle
of the i-th qualifying entry), each returning 1; entries that do not qualify
produce no object and no failing return value; the load after the last
private-key object returns 0 and hands over nothing. -/
theorem C2_keys_after_certificates (P : Platform) (provctx : Option Nat)
    (uri : Option CString) (ctx : T_CNG_STORE_CTX) (tr : List Event)
    (certs : List CERT_CONTEXT) (cbs1 cbs2 : List OSSL_CALLBACK)
    (hopen : cng_store_open P provctx uri = Except.ok (some ctx, tr))
    (hstore : ctx.windows_certificate_store = some certs)
    (hlen1 : cbs1.length = certs.length)
    (hlen2 : cbs2.length = (certs.filterMap (qualifying_handle P)).length + 1)
    (hacc : ∀ cb ∈ cbs2, ∀ o, cb o ≠ 0) :
    ∃ m, run P { store_ctx := ctx, trace := tr } ((cbs1 ++ cbs2).map Call.load) =
      Except.ok
        (certs.map (fun c => { ret := 1, objects := [OSSL_OBJECT.CERT c.pbCertEncoded] }) ++
          ((certs.filterMap (qualifying_handle P)).map (fun h =>
            { ret := 1, objects := [OSSL_OBJECT.PKEY (some "rsaEncryption")
              { windows_key_handle := some h }] }) ++
          [{ ret := 0, objects := [] }]), m) ∧
      m.store_ctx.cert_store_eof = true ∧ m.store_ctx.priv_key_store_eof = true := by
  obtain ⟨certs1, hs, hp, he, hcur, -⟩ := open_state P provctx uri ctx tr hopen
  rw [hstore] at hs
  simp only [Option.some.injEq] at hs
  subst hs
  -- the certificate phase
  have hphase1 : ∃ m1, run P { store_ctx := ctx, trace := tr } (cbs1.map Call.load) =
      Except.ok (certs.map cert_response, m1) ∧
      m1.store_ctx.windows_certificate_store = some certs ∧
      m1.store_ctx.cert_store_eof = true ∧ KeyCursorAt P certs m1.store_ctx 0 := by
    match cbs1, hlen1 with
    | [], hlen1 =>
      have hnil : certs = [] := by
        cases certs with
        | nil => rfl
        | cons c cs => simp at hlen1
      subst hnil
      exact ⟨_, rfl, hstore, by simpa using he, hcur⟩
    | cb :: cbs, hlen1 =>
      have hpos : 0 < certs.length := by simp at hlen1; omega
      rw [if_pos hpos] at hp
      have hne : ¬ certs.length = 0 := by omega
      simp only [hne, decide_False] at he
      obtain ⟨m1, hrun, hm1⟩ := cert_run P certs cbs cb 0 { store_ctx := ctx, trace := tr }
        hstore he hp (by simpa [Nat.add_comm] using hlen1)
      refine ⟨m1, by simpa using hrun, by rw [hm1]; exact hstore, by rw [hm1], ?_⟩
      rw [hm1]
      exact hcur
  obtain ⟨m1, hrun1, hst1, hc1, hcur1⟩ := hphase1
  obtain ⟨m2, hrun2, hc2, hk2⟩ := key_run P certs _ 0 m1 cbs2 hst1 hc1 hcur1 rfl
    (by simpa using hlen2) hacc
  refine ⟨m2, ?_, hc2, hk2⟩
  rw [List.map_append, run_append P _ _ _ _ _ _ _ hrun1 hrun2]
  simp only [List.drop_zero]
  rfl

/-- The example store: two certificate loads, one key load, one load returning 0. -/
theorem C2_keys_after_certificates_witness :
    ∃ m, run example_platform example_session
        ((([fun _ => 0, fun _ => 1] : List OSSL_CALLBACK) ++
          [fun _ => 1, fun _ => 1]).map Call.load) =
      Except.ok
        (example_certs.map (fun c =>
            { ret := 1, objects := [OSSL_OBJECT.CERT c.pbCertEncoded] }) ++
          ((example_certs.filterMap (qualifying_handle example_platform)).map (fun h =>
            { ret := 1, objects := [OSSL_OBJECT.PKEY (some "rsaEncryption")
              { windows_key_handle := some h }] }) ++
          [{ ret := 0, objects := [] }]), m) ∧
      m.store_ctx.cert_store_eof = true ∧ m.store_ctx.priv_key_store_eof = true :=
  C2_keys_after_certificates example_platform (some 1) (some (cstr "cng://MY"))
    example_session.store_ctx example_session.trace example_certs
    [fun _ => 0, fun _ => 1] [fun _ => 1, fun _ => 1]
    example_session_open rfl rfl (by decide) (by
      intro cb hcb o
      simp only [List.mem_cons, List.mem_singleton, List.not_mem_nil, or_false, or_self] at hcb
      subst hcb
      exact one_ne_zero)

/-- C3, as stated, fails: on the store "MY" with a certificate carrying a
qualifying RSA key and a certificate without private key, the four loads yield
CERT, CERT, PKEY and 0, but `cng_store_eof` is already 1 after the third load
(the key sub-cursor is advanced, and found exhausted, within the third load),
not only after the fourth. -/
theorem C3_eof_only_after_fourth_refuted :
    open_and_run example_platform (some 1) (some (cstr "cng://MY"))
        [Call.load (fun _ => 1), Call.eof, Call.load (fun _ => 1), Call.eof,
         Call.load (fun _ => 1), Call.eof, Call.load (fun _ => 1), Call.eof] ≠
      Except.ok (some
        [{ ret := 1, objects := [OSSL_OBJECT.CERT [48, 1]] }, { ret := 0, objects := [] },
         { ret := 1, objects := [OSSL_OBJECT.CERT [48, 2]] }, { ret := 0, objects := [] },
         { ret := 1, objects := [OSSL_OBJECT.PKEY (some "rsaEncryption")
            { windows_key_handle := some 7 }] }, { ret := 0, objects := [] },
         { ret := 0, objects := [] }, { ret := 1, objects := [] }]) := by
  decide

theorem parse_my :
    parse_uri_from_store_open init_store_ctx (some (cstr "cng://MY")) =
      { ret := 1, failure := none,
        store_ctx := { init_store_ctx with
          windows_system_store_name := some "MY",
          store_location_flag := some CERT_SYSTEM_STORE_CURRENT_USER } } := by
  decide

/-- C3, amended: for the store "MY" of the current user holding a certificate
with a qualifying RSA key and then a certificate without private key, and an
accepting callback, four loads after `cng_store_open` yield CERT(cert1),
CERT(cert2), PKEY(reference to the key of cert1) and 0; `cng_store_eof` is 0
after the first and the second load and 1 after the third and the fourth. -/
theorem C3_example_sequence (P : Platform) (p : Nat) (b1 b2 : List Nat)
    (h : NCRYPT_KEY_HANDLE) (cb : OSSL_CALLBACK)
    (hmalloc : P.malloc_store_ctx_ok = true) (hnew : P.cng_keymgmt_new_ok = true)
    (hstore : P.CertOpenStore CERT_SYSTEM_STORE_CURRENT_USER "MY" = some
      [ { pbCertEncoded := b1,
          private_key := some { handle := h, key_spec := CERT_NCRYPT_KEY_SPEC,
                                caller_must_free := true } },
        { pbCertEncoded := b2, private_key := none } ])
    (hrsa : get_key_algorithm_name P h = some "rsaEncryption")
    (hacc : ∀ o, cb o ≠ 0) :
    open_and_run P (some p) (some (cstr "cng://MY"))
        [Call.load cb, Call.eof, Call.load cb, Call.eof,
         Call.load cb, Call.eof, Call.load cb, Call.eof] =
      Except.ok (some
        [{ ret := 1, objects := [OSSL_OBJECT.CERT b1] }, { ret := 0, objects := [] },
         { ret := 1, objects := [OSSL_OBJECT.CERT b2] }, { ret := 0, objects := [] },
         { ret := 1, objects := [OSSL_OBJECT.PKEY (some "rsaEncryption")
            { windows_key_handle := some h }] }, { ret := 1, objects := [] },
         { ret := 0, objects := [] }, { ret := 1, objects := [] }]) := by
  have hargs : are_store_open_args_ok (some p) (some (cstr "cng://MY")) = 1 := by
    simp only [are_store_open_args_ok]; decide
  have hopen : cng_store_open P (some p) (some (cstr "cng://MY")) = Except.ok (some
      { windows_certificate_store := some
          [ { pbCertEncoded := b1,
              private_key := some { handle := h, key_spec := CERT_NCRYPT_KEY_SPEC,
                                    caller_must_free := true } },
            { pbCertEncoded := b2, private_key := none } ],
        store_location_flag := some CERT_SYSTEM_STORE_CURRENT_USER,
        windows_system_store_name := some "MY",
        prev_cert_ctx := some 0,
        prev_key_cert_ctx := some 0,
        cert_store_eof := false,
        priv_key_store_eof := false,
        key := { windows_key_handle := some h },
        expected_parameter_type := none },
      [Event.malloc_store_ctx true, Event.cng_keymgmt_new true,
       Event.CertOpenStore CERT_SYSTEM_STORE_CURRENT_USER "MY" true,
       Event.CertEnumCertificatesInStore none (some 0),
       Event.CertEnumCertificatesInStore none (some 0),
       Event.CryptAcquireCertificatePrivateKey 0
         (some { handle := h, key_spec := CERT_NCRYPT_KEY_SPEC, caller_must_free := true })]) := by
    simp only [cng_store_open, hargs, hmalloc, hnew, parse_my]
    simp [initialize_windows_cert_store,
      hstore, load_another_cert_from_store_into_context,
      load_another_privkey_from_store_into_context, privkey_loop, store_size,
      CertEnumCertificatesInStore, deref, hrsa, init_store_ctx, cng_keymgmt_new_keydata]
  simp [open_and_run, hopen, run, step, cng_store_load, load_another_cert,
    load_another_private_key, load_another_privkey_from_store_into_context, privkey_loop,
    store_size, CertEnumCertificatesInStore, deref, hrsa, hacc, cng_store_eof, emitted]

/-- The example platform satisfies the hypotheses of the example. -/
theorem C3_example_sequence_witness :
    open_and_run example_platform (some 1) (some (cstr "cng://MY"))
        [Call.load (fun _ => 1), Call.eof, Call.load (fun _ => 1), Call.eof,
         Call.load (fun _ => 1), Call.eof, Call.load (fun _ => 1), Call.eof] =
      Except.ok (some
        [{ ret := 1, objects := [OSSL_OBJECT.CERT [48, 1]] }, { ret := 0, objects := [] },
         { ret := 1, objects := [OSSL_OBJECT.CERT [48, 2]] }, { ret := 0, objects := [] },
         { ret := 1, objects := [OSSL_OBJECT.PKEY (some "rsaEncryption")
            { windows_key_handle := some 7 }] }, { ret := 1, objects := [] },
         { ret := 0, objects := [] }, { ret := 1, objects := [] }]) :=
  C3_example_sequence example_platform 1 [48, 1] [48, 2] 7 (fun _ => 1) rfl rfl
    (by decide) (by decide) (fun _ => one_ne_zero)

/-! ## C4: end of stream -/

theorem enum_deref (store : Option HCERTSTORE) (prev : PCCERT_CONTEXT) (j : Nat)
    (h : CertEnumCertificatesInStore store prev = some j) :
    ∃ c, deref store (some j) = some c := by
  rw [enum_eq] at h
  split_ifs at h with hlt
  simp only [Option.some.injEq] at h
  subst h
  rw [deref_eq]
  exact ⟨(store.getD []).get ⟨_, hlt⟩, by simp⟩

/-- One call on a session with a valid certificate pointer returns, keeps the
pointer valid and clears neither exhaustion flag. -/
theorem step_invariant (P : Platform) (m : Machine) (call : Call)
    (hv : CertPointerValid m) :
    ∃ r m1, step P m call = Except.ok (r, m1) ∧ CertPointerValid m1 ∧
      (m.store_ctx.cert_store_eof = true → m1.store_ctx.cert_store_eof = true) ∧
      (m.store_ctx.priv_key_store_eof = true → m1.store_ctx.priv_key_store_eof = true) := by
  cases call with
  | eof => exact ⟨_, m, rfl, hv, id, id⟩
  | set_ctx_params ps =>
    refine ⟨_, (cng_store_set_ctx_params m ps).2, rfl, ?_, ?_, ?_⟩
    all_goals
      unfold cng_store_set_ctx_params
      cases ps with
      | none => first | exact hv | exact id
      | some l =>
        simp only
        cases OSSL_PARAM_locate_const l OSSL_STORE_PARAM_EXPECT with
        | none => first | exact hv | exact id
        | some q => first | exact hv | exact id
  | load cb =>
    cases hc : m.store_ctx.cert_store_eof with
    | false =>
      obtain ⟨c, hd⟩ := hv hc
      obtain ⟨-, hstep⟩ := load_cert_step P m cb c hc hd
      refine ⟨_, _, hstep, ?_, fun h => by simp at h, fun h => h⟩
      intro hne
      simp only [cert_advanced] at hne ⊢
      cases hn : CertEnumCertificatesInStore m.store_ctx.windows_certificate_store
          m.store_ctx.prev_cert_ctx with
      | none => simp [hn] at hne
      | some j => exact enum_deref _ _ j hn
    | true =>
      cases hk : m.store_ctx.priv_key_store_eof with
      | true =>
        exact ⟨_, m, load_exhausted P m cb hc hk, hv, fun _ => hc, fun _ => hk⟩
      | false =>
        by_cases hcb : cb (pkey_object P m) = 0
        · have hl := load_key_rejected P m cb hc hk hcb
          refine ⟨_, key_offered P m cb, by simp only [step, hl]; rfl, ?_, fun _ => hc,
            fun h => by simp at h⟩
          intro hne
          exact absurd hne (by simp [key_offered, hc])
        · obtain ⟨new, -, -, hstep⟩ := load_key_step P m cb hc hk hcb
          refine ⟨_, _, hstep, ?_, ?_, fun h => by simp at h⟩
          · intro hne
            cases hsc : scan P ((store_certs m).drop (start_index m.store_ctx.prev_key_cert_ctx))
                (start_index m.store_ctx.prev_key_cert_ctx) with
            | none => rw [hsc] at hne; simp [key_exhausted, key_offered, hc] at hne
            | some jh => rw [hsc] at hne; simp [key_found, key_offered, hc] at hne
          · intro _
            cases scan P ((store_certs m).drop (start_index m.store_ctx.prev_key_cert_ctx))
                (start_index m.store_ctx.prev_key_cert_ctx) with
            | none => simpa [key_exhausted, key_offered] using hc
            | some jh => simpa [key_found, key_offered] using hc

/-- Any sequence of calls on a session with a valid certificate pointer returns,
keeps the pointer valid and clears neither exhaustion flag. -/
theorem run_invariant (P : Platform) : ∀ (calls : List Call) (m : Machine),
    CertPointerValid m →
    ∃ rs m1, run P m calls = Except.ok (rs, m1) ∧ CertPointerValid m1 ∧
      (m.store_ctx.cert_store_eof = true → m1.store_ctx.cert_store_eof = true) ∧
      (m.store_ctx.priv_key_store_eof = true → m1.store_ctx.priv_key_store_eof = true) := by
  intro calls
  induction calls with
  | nil => intro m hv; exact ⟨[], m, rfl, hv, id, id⟩
  | cons c cs ih =>
    intro m hv
    obtain ⟨r, m1, hstep, hv1, hc1, hk1⟩ := step_invariant P m c hv
    obtain ⟨rs, m2, hrun, hv2, hc2, hk2⟩ := ih m1 hv1
    exact ⟨r :: rs, m2, run_cons P c cs m m1 m2 r rs hstep hrun, hv2,
      fun h => hc2 (hc1 h), fun h => hk2 (hk1 h)⟩

theorem open_valid (P : Platform) (provctx : Option Nat) (uri : Option CString)
    (ctx : T_CNG_STORE_CTX) (tr : List Event)
    (hopen : cng_store_open P provctx uri = Except.ok (some ctx, tr)) :
    CertPointerValid { store_ctx := ctx, trace := tr } := by
  obtain ⟨certs, hs, hp, he, -, -⟩ := open_state P provctx uri ctx tr hopen
  intro hne
  simp only at hne
  rw [he] at hne
  have hpos : 0 < certs.length := by
    simp only [decide_eq_false_iff_not] at hne; omega
  simp only [hs, hp, if_pos hpos, deref]
  exact ⟨certs.get ⟨0, hpos⟩, by simp⟩

/-- C4: in every session state reachable from `cng_store_open` by loads, eof
queries and parameter settings (and every such sequence of calls returns),
`cng_store_eof` is nonzero iff both exhaustion flags are set, the eof query
leaves the state unchanged, and no later sequence of calls clears an exhaustion
flag; so once `cng_store_eof` has returned 1 it returns 1 on every later call. -/
theorem C4_eof_monotone (P : Platform) (provctx : Option Nat) (uri : Option CString)
    (ctx : T_CNG_STORE_CTX) (tr : List Event) (calls1 calls2 : List Call)
    (hopen : cng_store_open P provctx uri = Except.ok (some ctx, tr)) :
    ∃ rs1 m1 rs2 m2,
      run P { store_ctx := ctx, trace := tr } calls1 = Except.ok (rs1, m1) ∧
      run P m1 calls2 = Except.ok (rs2, m2) ∧
      (cng_store_eof m1 ≠ 0 ↔
        (m1.store_ctx.cert_store_eof = true ∧ m1.store_ctx.priv_key_store_eof = true)) ∧
      step P m1 Call.eof = Except.ok ({ ret := cng_store_eof m1, objects := [] }, m1) ∧
      (m1.store_ctx.cert_store_eof = true → m2.store_ctx.cert_store_eof = true) ∧
      (m1.store_ctx.priv_key_store_eof = true → m2.store_ctx.priv_key_store_eof = true) ∧
      (cng_store_eof m1 = 1 → cng_store_eof m2 = 1) := by
  obtain ⟨rs1, m1, hrun1, hv1, -, -⟩ := run_invariant P calls1 _
    (open_valid P provctx uri ctx tr hopen)
  obtain ⟨rs2, m2, hrun2, -, hc, hk⟩ := run_invariant P calls2 m1 hv1
  refine ⟨rs1, m1, rs2, m2, hrun1, hrun2, ?_, rfl, hc, hk, ?_⟩
  · unfold cng_store_eof
    cases m1.store_ctx.cert_store_eof <;> cases m1.store_ctx.priv_key_store_eof <;> simp
  · unfold cng_store_eof
    intro h
    have h1 : m1.store_ctx.cert_store_eof = true ∧ m1.store_ctx.priv_key_store_eof = true := by
      revert h
      cases m1.store_ctx.cert_store_eof <;> cases m1.store_ctx.priv_key_store_eof <;> simp
    simp [hc h1.1, hk h1.2]

/-- The example session under loads, a parameter setting and eof queries. -/
theorem C4_eof_monotone_witness :
    ∃ rs1 m1 rs2 m2,
      run example_platform
        { store_ctx := example_session.store_ctx, trace := example_session.trace }
        [Call.load (fun _ => 1), Call.set_ctx_params (some [{ key := "expect", data := 4 }]),
         Call.load (fun _ => 0), Call.load (fun _ => 1)] = Except.ok (rs1, m1) ∧
      run example_platform m1 [Call.eof, Call.load (fun _ => 1), Call.eof] =
        Except.ok (rs2, m2) ∧
      (cng_store_eof m1 ≠ 0 ↔
        (m1.store_ctx.cert_store_eof = true ∧ m1.store_ctx.priv_key_store_eof = true)) ∧
      step example_platform m1 Call.eof =
        Except.ok ({ ret := cng_store_eof m1, objects := [] }, m1) ∧
      (m1.store_ctx.cert_store_eof = true → m2.store_ctx.cert_store_eof = true) ∧
      (m1.store_ctx.priv_key_store_eof = true → m2.store_ctx.priv_key_store_eof = true) ∧
      (cng_store_eof m1 = 1 → cng_store_eof m2 = 1) :=
  C4_eof_monotone example_platform (some 1) (some (cstr "cng://MY"))
    example_session.store_ctx example_session.trace _ _ example_session_open

/-! ## C5: the empty store -/

theorem parse_ok_scheme (ctx : T_CNG_STORE_CTX) (uri : CString)
    (h : (parse_uri_from_store_open ctx (some uri)).ret = 1) :
    strncmp_zero uri (cstr "cng://") 6 = true := by
  by_contra hne
  simp only [Bool.not_eq_true] at hne
  simp [parse_uri_from_store_open, hne] at h

/-- C5: when the provider context is non-null, the allocations succeed, the URI
is well formed and its store opens but holds no certificate, `cng_store_open`
returns a session, `cng_store_eof` is 1 immediately, and the first load returns
0 without calling the callback and without changing the state. -/
theorem C5_empty_store (P : Platform) (p : Nat) (uri : CString) (cb : OSSL_CALLBACK)
    (hmalloc : P.malloc_store_ctx_ok = true) (hnew : P.cng_keymgmt_new_ok = true)
    (hparse : (parse_uri_from_store_open init_store_ctx (some uri)).ret = 1)
    (hstore : P.CertOpenStore
      ((parse_uri_from_store_open init_store_ctx (some uri)).store_ctx.store_location_flag.getD 0)
      ((parse_uri_from_store_open init_store_ctx
        (some uri)).store_ctx.windows_system_store_name.getD "") = some []) :
    ∃ ctx tr, cng_store_open P (some p) (some uri) = Except.ok (some ctx, tr) ∧
      cng_store_eof { store_ctx := ctx, trace := tr } = 1 ∧
      step P { store_ctx := ctx, trace := tr } (Call.load cb) =
        Except.ok ({ ret := 0, objects := [] }, { store_ctx := ctx, trace := tr }) := by
  have hargs : are_store_open_args_ok (some p) (some uri) = 1 := by
    simp [are_store_open_args_ok, parse_ok_scheme init_store_ctx uri hparse]
  obtain ⟨hw, hpc, hpk, hce, hke, hkey, hexp⟩ := parse_frame init_store_ctx (some uri)
  have hopen : ∃ ctx tr, cng_store_open P (some p) (some uri) = Except.ok (some ctx, tr) ∧
      ctx.cert_store_eof = true ∧ ctx.priv_key_store_eof = true := by
    simp only [cng_store_open, hargs, hmalloc, hnew, hparse]
    generalize parse_uri_from_store_open init_store_ctx (some uri) = parsed at *
    simp [initialize_windows_cert_store, hstore, load_another_cert_from_store_into_context,
      load_another_privkey_from_store_into_context, privkey_loop, store_size,
      CertEnumCertificatesInStore, hke, hpc, hpk, init_store_ctx]
  obtain ⟨ctx, tr, ho, hc, hk⟩ := hopen
  refine ⟨ctx, tr, ho, ?_, ?_⟩
  · simp [cng_store_eof, hc, hk]
  · exact load_exhausted P _ cb hc hk

/-- A platform whose stores are all empty, opened as "cng://ca@LocalMachine". -/
theorem C5_empty_store_witness :
    ∃ ctx tr, cng_store_open
        { example_platform with CertOpenStore := fun _ _ => some [] }
        (some 1) (some (cstr "cng://ca@LocalMachine")) = Except.ok (some ctx, tr) ∧
      cng_store_eof { store_ctx := ctx, trace := tr } = 1 ∧
      step { example_platform with CertOpenStore := fun _ _ => some [] }
          { store_ctx := ctx, trace := tr } (Call.load (fun _ => 1)) =
        Except.ok ({ ret := 0, objects := [] }, { store_ctx := ctx, trace := tr }) :=
  C5_empty_store { example_platform with CertOpenStore := fun _ _ => some [] } 1
    (cstr "cng://ca@LocalMachine") (fun _ => 1) rfl rfl (by decide) rfl

/-! ## C6, C7: the addressing scheme -/

theorem tolower_toupper (c : Nat) : tolower (toupper c) = tolower c := by
  unfold tolower toupper
  split_ifs <;> omega

theorem toupper_tolower (c : Nat) : toupper (tolower c) = toupper c := by
  unfold tolower toupper
  split_ifs <;> omega

theorem map_toupper_eq_iff (tok t : CString) (ht : t.map toupper = t) :
    tok.map toupper = t ↔ eq_ignore_case tok t := by
  unfold eq_ignore_case
  constructor
  · intro h
    have := congrArg (List.map tolower) h
    simp only [List.map_map] at this
    rw [← this]
    apply List.map_congr_left
    intro a _
    exact (tolower_toupper a).symm
  · intro h
    have := congrArg (List.map toupper) h
    simp only [List.map_map] at this
    have e1 : List.map (toupper ∘ tolower) tok = List.map toupper tok :=
      List.map_congr_left (fun a _ => toupper_tolower a)
    have e2 : List.map (toupper ∘ tolower) t = List.map toupper t :=
      List.map_congr_left (fun a _ => toupper_tolower a)
    rw [e1, e2, ht] at this
    exact this

theorem strchr_none (c : Nat) : ∀ (s : CString), strchr s c = none →
    c ∉ s ∧ s.takeWhile (fun x => x != c) = s := by
  intro s
  induction s with
  | nil => intro _; simp
  | cons x xs ih =>
    intro h
    unfold strchr at h
    split_ifs at h with hx
    simp only [Option.map_eq_none'] at h
    obtain ⟨h1, h2⟩ := ih h
    refine ⟨by simp [h1, Ne.symm hx], ?_⟩
    simp [List.takeWhile_cons, hx, h2]

theorem strchr_some (c : Nat) : ∀ (s : CString) (k : Nat), strchr s c = some k →
    c ∈ s ∧ s.take k = s.takeWhile (fun x => x != c) ∧
      s.drop (k + 1) = (s.dropWhile (fun x => x != c)).drop 1 := by
  intro s
  induction s with
  | nil => intro k h; simp [strchr] at h
  | cons x xs ih =>
    intro k h
    unfold strchr at h
    split_ifs at h with hx
    · simp only [Option.some.injEq] at h
      subst h
      subst hx
      simp [List.takeWhile_cons, List.dropWhile_cons]
    · simp only [Option.map_eq_some'] at h
      obtain ⟨k1, hk1, rfl⟩ := h
      obtain ⟨h1, h2, h3⟩ := ih k1 hk1
      refine ⟨by simp [h1], ?_, ?_⟩
      · simp [List.takeWhile_cons, hx, h2]
      · simp [List.dropWhile_cons, hx, h3]

theorem truncated_match (f : Nat → Nat) (tok t : CString) (ht : t.length < 63) :
    (tok.take 63).map f = t ↔ tok.map f = t := by
  by_cases hl : tok.length ≤ 63
  · rw [List.take_of_length_le hl]
  · constructor
    · intro h
      have := congrArg List.length h
      simp at this
      omega
    · intro h
      have := congrArg List.length h
      simp at this
      omega

theorem pick_name (sn tok : CString)
    (h1 : strcmp_zero sn (cstr "CA") = true ↔ eq_ignore_case tok (cstr "CA"))
    (h2 : strcmp_zero sn (cstr "MY") = true ↔ eq_ignore_case tok (cstr "MY"))
    (h3 : strcmp_zero sn (cstr "ROOT") = true ↔ eq_ignore_case tok (cstr "ROOT")) :
    (if strcmp_zero sn (cstr "CA") then some "CA"
      else if strcmp_zero sn (cstr "MY") then some "MY"
      else if strcmp_zero sn (cstr "ROOT") then some "ROOT"
      else none) = canonical_store_name tok := by
  unfold canonical_store_name
  simp only [h1, h2, h3]

theorem name_matches (buf tok t : CString) (hbuf : buf = tok.take 63)
    (ht : t.map toupper = t) (hl : t.length < 63) :
    strcmp_zero (buf.map toupper) t = true ↔ eq_ignore_case tok t := by
  rw [hbuf, strcmp_zero, beq_iff_eq, truncated_match toupper _ t hl,
    map_toupper_eq_iff _ t ht]

/-- The parser computes the addressing scheme of the specification. -/
theorem parse_refines (ctx : T_CNG_STORE_CTX) (uri : CString) :
    parse_uri_from_store_open ctx (some uri) = parse_spec ctx uri := by
  unfold parse_uri_from_store_open parse_spec
  simp only [strncmp_zero]
  have h6 : (cstr "cng://").take 6 = cstr "cng://" := by decide
  rw [h6]
  by_cases hs : uri.take 6 = cstr "cng://"
  · simp only [hs, beq_self_eq_true, Bool.not_true, Bool.false_eq_true, if_false, ne_eq,
      not_true_eq_false]
    have hloc : ∀ t, stricmp_zero (uri_location_token (uri.drop 6)) t = true ↔
        eq_ignore_case (uri_location_token (uri.drop 6)) t := by
      intro t; simp [stricmp_zero, eq_ignore_case]
    cases hat : strchr (uri.drop 6) 64 with
    | none =>
      obtain ⟨hnm, htw⟩ := strchr_none 64 _ hat
      have hbuf : (uri.drop 6).take 63 = (uri_name_token (uri.drop 6)).take 63 := by
        unfold uri_name_token; rw [htw]
      simp only
      rw [pick_name _ (uri_name_token (uri.drop 6))
        (name_matches _ _ _ hbuf (by decide) (by decide))
        (name_matches _ _ _ hbuf (by decide) (by decide))
        (name_matches _ _ _ hbuf (by decide) (by decide))]
      cases canonical_store_name (uri_name_token (uri.drop 6)) with
      | none => rfl
      | some name => simp [hnm]
    | some k =>
      obtain ⟨hmem, htk, hdrop⟩ := strchr_some 64 _ k hat
      have hbuf : (uri.drop 6).take (if k ≥ 64 then 63 else k) =
          (uri_name_token (uri.drop 6)).take 63 := by
        unfold uri_name_token
        rw [← htk, List.take_take]
        congr 1
        split_ifs <;> omega
      have hl : (uri.drop 6).drop (k + 1) = uri_location_token (uri.drop 6) := hdrop
      simp only
      rw [pick_name _ (uri_name_token (uri.drop 6))
        (name_matches _ _ _ hbuf (by decide) (by decide))
        (name_matches _ _ _ hbuf (by decide) (by decide))
        (name_matches _ _ _ hbuf (by decide) (by decide))]
      cases canonical_store_name (uri_name_token (uri.drop 6)) with
      | none => rfl
      | some name =>
        simp only [hl, hmem, not_true_eq_false, if_false, hloc]
  · simp [hs]

theorem scheme_iff (uri : CString) :
    uri.take 6 = cstr "cng://" ↔ ∃ rest, uri = cstr "cng://" ++ rest := by
  constructor
  · intro h
    exact ⟨uri.drop 6, by rw [← h, List.take_append_drop]⟩
  · rintro ⟨rest, rfl⟩
    have : (cstr "cng://").length = 6 := by decide
    rw [← this, List.take_left']
    rfl

theorem scheme_rest (rest : CString) : (cstr "cng://" ++ rest).drop 6 = rest := by
  have : (cstr "cng://").length = 6 := by decide
  rw [← this, List.drop_left']
  rfl

theorem canonical_store_name_some (tok : CString) (name : String)
    (h : canonical_store_name tok = some name) :
    cstr name = tok.map toupper ∧ known_store_name tok := by
  unfold canonical_store_name at h
  unfold known_store_name
  split_ifs at h with h1 h2 h3
  · simp only [Option.some.injEq] at h; subst h
    exact ⟨((map_toupper_eq_iff tok _ (by decide)).2 h1).symm, Or.inl h1⟩
  · simp only [Option.some.injEq] at h; subst h
    exact ⟨((map_toupper_eq_iff tok _ (by decide)).2 h2).symm, Or.inr (Or.inl h2)⟩
  · simp only [Option.some.injEq] at h; subst h
    exact ⟨((map_toupper_eq_iff tok _ (by decide)).2 h3).symm, Or.inr (Or.inr h3)⟩

theorem canonical_store_name_none (tok : CString) (h : canonical_store_name tok = none) :
    ¬ known_store_name tok := by
  unfold canonical_store_name at h
  unfold known_store_name
  split_ifs at h with h1 h2 h3
  exact fun hk => hk.elim h1 (fun hk => hk.elim h2 h3)

theorem location_token_without_at (rest : CString) (h : 64 ∉ rest) :
    uri_location_token rest = [] := by
  unfold uri_location_token
  have : rest.dropWhile (fun x => x != 64) = [] := by
    rw [List.dropWhile_eq_nil_iff]
    intro x hx
    have : x ≠ 64 := fun e => h (e ▸ hx)
    simpa using this
  rw [this]; rfl

/-- C6: `parse_uri_from_store_open` succeeds iff the URI starts with "cng://",
its name token (the text up to the first '@', or all of it) is CA, MY or ROOT
ignoring ASCII case, and either there is no '@' or the text after the first '@'
is localmachine or currentuser ignoring ASCII case; on success the stored name
is the upper-cased name token, and the stored location is the local machine
exactly when the location token is localmachine, and the current user
otherwise (also without '@'). -/
theorem C6_uri_grammar (ctx : T_CNG_STORE_CTX) (uri : CString) :
    ((parse_uri_from_store_open ctx (some uri)).ret = 1 ↔
      ∃ rest, uri = cstr "cng://" ++ rest ∧ known_store_name (uri_name_token rest) ∧
        (64 ∉ rest ∨ known_location (uri_location_token rest))) ∧
    (∀ rest, uri = cstr "cng://" ++ rest →
      (parse_uri_from_store_open ctx (some uri)).ret = 1 →
      (∃ name, (parse_uri_from_store_open ctx (some uri)).store_ctx.windows_system_store_name =
          some name ∧ cstr name = (uri_name_token rest).map toupper) ∧
      (parse_uri_from_store_open ctx (some uri)).store_ctx.store_location_flag =
        some (if eq_ignore_case (uri_location_token rest) (cstr "localmachine")
          then CERT_SYSTEM_STORE_LOCAL_MACHINE else CERT_SYSTEM_STORE_CURRENT_USER)) := by
  rw [parse_refines]
  by_cases hs : uri.take 6 = cstr "cng://"
  · obtain ⟨rest0, rfl⟩ := (scheme_iff uri).1 hs
    have key : ∀ rest, cstr "cng://" ++ rest0 = cstr "cng://" ++ rest → rest = rest0 := by
      intro rest h; exact (List.append_cancel_left h).symm
    unfold parse_spec
    simp only [hs, ne_eq, not_true_eq_false, if_false, scheme_rest]
    cases hc : canonical_store_name (uri_name_token rest0) with
    | none =>
      have hk := canonical_store_name_none _ hc
      refine ⟨⟨fun h => by simp at h, ?_⟩, fun rest _ h => by simp at h⟩
      rintro ⟨rest, he, hname, -⟩
      rw [key rest he] at hname
      exact absurd hname hk
    | some name =>
      obtain ⟨hcan, hk⟩ := canonical_store_name_some _ _ hc
      simp only
      by_cases h1 : 64 ∉ rest0
      · have hl : ¬ eq_ignore_case (uri_location_token rest0) (cstr "localmachine") := by
          rw [location_token_without_at rest0 h1]; decide
        simp only [h1, not_false_eq_true, if_true, hl, if_false]
        refine ⟨⟨fun _ => ⟨rest0, rfl, hk, Or.inl h1⟩, fun _ => trivial⟩, ?_⟩
        intro rest he _
        rw [key rest he]
        simp only [hl, if_false]
        exact ⟨⟨name, rfl, hcan⟩, trivial⟩
      · simp only [h1, if_false]
        by_cases h2 : eq_ignore_case (uri_location_token rest0) (cstr "localmachine")
        · simp only [h2, if_true]
          refine ⟨⟨fun _ => ⟨rest0, rfl, hk, Or.inr (Or.inl h2)⟩, fun _ => trivial⟩, ?_⟩
          intro rest he _
          rw [key rest he]
          simp only [h2, if_true]
          exact ⟨⟨name, rfl, hcan⟩, trivial⟩
        · simp only [h2, if_false]
          by_cases h3 : eq_ignore_case (uri_location_token rest0) (cstr "currentuser")
          · simp only [h3, if_true]
            refine ⟨⟨fun _ => ⟨rest0, rfl, hk, Or.inr (Or.inr h3)⟩, fun _ => trivial⟩, ?_⟩
            intro rest he _
            rw [key rest he]
            simp only [h2, if_false]
            exact ⟨⟨name, rfl, hcan⟩, trivial⟩
          · simp only [h3, if_false]
            refine ⟨⟨fun h => by simp at h, ?_⟩, fun rest _ h => by simp at h⟩
            rintro ⟨rest, he, -, hloc⟩
            rw [key rest he] at hloc
            rcases hloc with h | h | h
            · exact absurd h h1
            · exact absurd h h2
            · exact absurd h h3
  · have hne : ¬ ∃ rest, uri = cstr "cng://" ++ rest := fun h => hs ((scheme_iff uri).2 h)
    unfold parse_spec
    simp only [ne_eq, hs, not_false_eq_true, if_true]
    refine ⟨⟨fun h => by simp at h, ?_⟩, fun rest he _ => absurd ⟨rest, he⟩ hne⟩
    rintro ⟨rest, he, -, -⟩
    exact absurd ⟨rest, he⟩ hne

/-- The URI "cng://Root@LocalMachine" parses to ROOT on the local machine. -/
theorem C6_uri_grammar_witness :
    (parse_uri_from_store_open init_store_ctx (some (cstr "cng://Root@LocalMachine"))).ret = 1 ∧
    (∃ name, (parse_uri_from_store_open init_store_ctx
        (some (cstr "cng://Root@LocalMachine"))).store_ctx.windows_system_store_name =
          some name ∧ cstr name = (uri_name_token (cstr "Root@LocalMachine")).map toupper) ∧
      (parse_uri_from_store_open init_store_ctx
        (some (cstr "cng://Root@LocalMachine"))).store_ctx.store_location_flag =
        some (if eq_ignore_case (uri_location_token (cstr "Root@LocalMachine"))
            (cstr "localmachine")
          then CERT_SYSTEM_STORE_LOCAL_MACHINE else CERT_SYSTEM_STORE_CURRENT_USER) :=
  ⟨by decide, (C6_uri_grammar init_store_ctx (cstr "cng://Root@LocalMachine")).2
    (cstr "Root@LocalMachine") (by decide) (by decide)⟩

theorem known_store_name_length (tok : CString) (h : known_store_name tok) :
    tok.length ≤ 4 := by
  unfold known_store_name eq_ignore_case at h
  rcases h with h | h | h
  all_goals
    have := congrArg List.length h
    simp only [List.length_map] at this
    rw [this]
    decide

/-- C7: the parser always returns, and on a malformed URI it returns 0 with the
specific error of the check that rejects the URI, the checks running in the
order scheme, store name, location: InvalidScheme when the input is NULL or
does not begin with "cng://"; UnknownStoreName when the scheme is right and the
name token is not CA, MY or ROOT, which includes every name token of 64 or more
characters; UnknownLocation when scheme and name are right, an '@' is present
and the location token is neither localmachine nor currentuser. Every call ends
either in success with no error or in 0 with one of these errors. -/
theorem C7_parse_errors (ctx : T_CNG_STORE_CTX) (uri : CString) :
    ((parse_uri_from_store_open ctx none).ret = 0 ∧
      (parse_uri_from_store_open ctx none).failure = some ParseError.InvalidScheme) ∧
    ((¬ ∃ rest, uri = cstr "cng://" ++ rest) →
      (parse_uri_from_store_open ctx (some uri)).ret = 0 ∧
      (parse_uri_from_store_open ctx (some uri)).failure = some ParseError.InvalidScheme) ∧
    (∀ rest, uri = cstr "cng://" ++ rest → ¬ known_store_name (uri_name_token rest) →
      (parse_uri_from_store_open ctx (some uri)).ret = 0 ∧
      (parse_uri_from_store_open ctx (some uri)).failure = some ParseError.UnknownStoreName) ∧
    (∀ rest, uri = cstr "cng://" ++ rest → 64 ≤ (uri_name_token rest).length →
      (parse_uri_from_store_open ctx (some uri)).ret = 0 ∧
      (parse_uri_from_store_open ctx (some uri)).failure = some ParseError.UnknownStoreName) ∧
    (∀ rest, uri = cstr "cng://" ++ rest → known_store_name (uri_name_token rest) →
      64 ∈ rest → ¬ known_location (uri_location_token rest) →
      (parse_uri_from_store_open ctx (some uri)).ret = 0 ∧
      (parse_uri_from_store_open ctx (some uri)).failure = some ParseError.UnknownLocation) ∧
    (((parse_uri_from_store_open ctx (some uri)).ret = 1 ∧
        (parse_uri_from_store_open ctx (some uri)).failure = none) ∨
      ((parse_uri_from_store_open ctx (some uri)).ret = 0 ∧
        ∃ e, (parse_uri_from_store_open ctx (some uri)).failure = some e)) := by
  have hname : ∀ rest, uri = cstr "cng://" ++ rest → ¬ known_store_name (uri_name_token rest) →
      (parse_uri_from_store_open ctx (some uri)).ret = 0 ∧
      (parse_uri_from_store_open ctx (some uri)).failure =
        some ParseError.UnknownStoreName := by
    rintro rest rfl hk
    rw [parse_refines]
    unfold parse_spec
    simp only [(scheme_iff _).2 ⟨rest, rfl⟩, ne_eq, not_true_eq_false, if_false, scheme_rest]
    cases hc : canonical_store_name (uri_name_token rest) with
    | none => exact ⟨rfl, rfl⟩
    | some name => exact absurd (canonical_store_name_some _ _ hc).2 hk
  refine ⟨⟨rfl, rfl⟩, ?_, hname, ?_, ?_, ?_⟩
  · intro hne
    have hs : ¬ uri.take 6 = cstr "cng://" := fun h => hne ((scheme_iff uri).1 h)
    rw [parse_refines]
    unfold parse_spec
    simp only [ne_eq, hs, not_false_eq_true, if_true, and_self]
  · intro rest he hlen
    refine hname rest he (fun hk => ?_)
    have := known_store_name_length _ hk
    omega
  · rintro rest rfl hk hat hloc
    rw [parse_refines]
    unfold parse_spec
    simp only [(scheme_iff _).2 ⟨rest, rfl⟩, ne_eq, not_true_eq_false, if_false, scheme_rest]
    cases hc : canonical_store_name (uri_name_token rest) with
    | none => exact absurd hk (canonical_store_name_none _ hc)
    | some name =>
      unfold known_location at hloc
      push_neg at hloc
      simp only [hat, not_true_eq_false, if_false, hloc.1, hloc.2, and_self]
  · rw [parse_refines]
    unfold parse_spec
    by_cases hs : uri.take 6 = cstr "cng://"
    · simp only [hs, ne_eq, not_true_eq_false, if_false]
      cases hc : canonical_store_name (uri_name_token (uri.drop 6)) with
      | none => exact Or.inr ⟨rfl, _, rfl⟩
      | some name =>
        simp only
        by_cases h1 : 64 ∉ uri.drop 6
        · simp only [h1, not_false_eq_true, if_true]
          simp
        · simp only [h1, if_false]
          by_cases h2 : eq_ignore_case (uri_location_token (uri.drop 6)) (cstr "localmachine")
          · simp only [h2, if_true]
            simp
          · simp only [h2, if_false]
            by_cases h3 : eq_ignore_case (uri_location_token (uri.drop 6)) (cstr "currentuser")
            · simp only [h3, if_true]
              simp
            · simp only [h3, if_false]
              simp
    · simp only [ne_eq, hs, not_false_eq_true, if_true]
      simp

/-- One malformed URI for each of the three errors. -/
theorem C7_parse_errors_witness :
    ((parse_uri_from_store_open init_store_ctx (some (cstr "http://MY"))).ret = 0 ∧
      (parse_uri_from_store_open init_store_ctx (some (cstr "http://MY"))).failure =
        some ParseError.InvalidScheme) ∧
    ((parse_uri_from_store_open init_store_ctx (some (cstr "cng://XX@bogus"))).ret = 0 ∧
      (parse_uri_from_store_open init_store_ctx (some (cstr "cng://XX@bogus"))).failure =
        some ParseError.UnknownStoreName) ∧
    ((parse_uri_from_store_open init_store_ctx (some (cstr "cng://MY@nowhere"))).ret = 0 ∧
      (parse_uri_from_store_open init_store_ctx (some (cstr "cng://MY@nowhere"))).failure =
        some ParseError.UnknownLocation) :=
  ⟨(C7_parse_errors init_store_ctx (cstr "http://MY")).2.1
    (fun h => absurd ((scheme_iff _).2 h) (by decide)),
   (C7_parse_errors init_store_ctx (cstr "cng://XX@bogus")).2.2.1 (cstr "XX@bogus")
    (by decide) (by decide),
   (C7_parse_errors init_store_ctx (cstr "cng://MY@nowhere")).2.2.2.2.1 (cstr "MY@nowhere")
    (by decide) (by decide) (by decide) (by decide)⟩

/-! ## C8, C9: release of the cached key handle -/

/-- C8 fails on the code: on a store with two qualifying keys (handles 7 and 9),
`cng_store_open` (first discovery) followed by two certificate loads and one
accepted key load (second discovery) leaves both acquired handles live; the
second discovery overwrote the cached handle 7 with 9 and no release was issued
for 7. -/
theorem C8_superseded_handle_not_released :
    ∃ m, open_and_run_state two_key_platform (some 1) (some (cstr "cng://MY"))
        [Call.load (fun _ => 1), Call.load (fun _ => 1), Call.load (fun _ => 1)] =
        Except.ok (some m) ∧
      acquired_handles m.trace = [7, 9] ∧ released_handles m.trace = [] ∧
      live_handles m.trace = [7, 9] ∧
      m.store_ctx.key.windows_key_handle = some 9 ∧
      m.store_ctx.priv_key_store_eof = false := by
  refine ⟨_, rfl, ?_, ?_, ?_, ?_, ?_⟩ <;> decide

/-- C9 fails on the code: when `CertCloseStore` fails, `cng_store_close` returns 0
right after it: `cng_keymgmt_free` has not been called and the session
memory has not been released. -/
theorem C9_close_failure_skips_release :
    cng_store_close { example_platform with CertCloseStore := fun _ => false } example_session =
      (0, { example_session with
        trace := example_session.trace ++ [Event.CertCloseStore false] }) ∧
    released_handles
      (cng_store_close { example_platform with CertCloseStore := fun _ => false }
        example_session).2.trace = [] ∧
    Event.free_store_ctx ∉
      (cng_store_close { example_platform with CertCloseStore := fun _ => false }
        example_session).2.trace ∧
    live_handles
      (cng_store_close { example_platform with CertCloseStore := fun _ => false }
        example_session).2.trace = [7] ∧
    (cng_store_close example_platform example_session).1 = 1 ∧
    released_handles (cng_store_close example_platform example_session).2.trace = [7] := by
  decide

/-! ## C10: callback rejection -/

/-- C10: a load on an active certificate sub-cursor returns 1 whatever the
callback returns for the CERT object (also 0); a load on an exhausted
certificate sub-cursor and an active key sub-cursor returns 0 when the callback
returns 0 for the PKEY object, and 1 when the callback returns nonzero. -/
theorem C10_callback_rejection (P : Platform) (m : Machine) (cb : OSSL_CALLBACK) :
    (∀ c, m.store_ctx.cert_store_eof = false →
      deref m.store_ctx.windows_certificate_store m.store_ctx.prev_cert_ctx = some c →
      step P m (Call.load cb) =
        Except.ok ({ ret := 1, objects := [OSSL_OBJECT.CERT c.pbCertEncoded] },
          cert_advanced m cb c)) ∧
    (m.store_ctx.cert_store_eof = true → m.store_ctx.priv_key_store_eof = false →
      cb (pkey_object P m) = 0 →
      step P m (Call.load cb) =
        Except.ok ({ ret := 0, objects := [pkey_object P m] }, key_offered P m cb)) ∧
    (m.store_ctx.cert_store_eof = true → m.store_ctx.priv_key_store_eof = false →
      cb (pkey_object P m) ≠ 0 →
      ∃ m1, step P m (Call.load cb) =
        Except.ok ({ ret := 1, objects := [pkey_object P m] }, m1)) := by
  refine ⟨fun c hc hd => (load_cert_step P m cb c hc hd).2, ?_, ?_⟩
  · intro hc hk hrej
    simp only [step, load_key_rejected P m cb hc hk hrej]
    simp [key_offered, emitted]
  · intro hc hk hacc
    obtain ⟨new, -, -, hstep⟩ := load_key_step P m cb hc hk hacc
    exact ⟨_, hstep⟩

/-- The example session before and after its certificates have been loaded. -/
theorem C10_callback_rejection_witness :
    step example_platform example_session (Call.load (fun _ => 0)) =
      Except.ok ({ ret := 1, objects := [OSSL_OBJECT.CERT [48, 1]] },
        cert_advanced example_session (fun _ => 0)
          { pbCertEncoded := [48, 1],
            private_key := some { handle := 7, key_spec := CERT_NCRYPT_KEY_SPEC,
                                  caller_must_free := true } }) ∧
    step example_platform example_session_keys (Call.load (fun _ => 0)) =
      Except.ok ({ ret := 0, objects := [pkey_object example_platform example_session_keys] },
        key_offered example_platform example_session_keys (fun _ => 0)) ∧
    ∃ m1, step example_platform example_session_keys (Call.load (fun _ => 1)) =
      Except.ok ({ ret := 1, objects := [pkey_object example_platform example_session_keys] },
        m1) :=
  ⟨(C10_callback_rejection example_platform example_session (fun _ => 0)).1 _ rfl rfl,
   (C10_callback_rejection example_platform example_session_keys (fun _ => 0)).2.1 rfl rfl rfl,
   (C10_callback_rejection example_platform example_session_keys (fun _ => 1)).2.2 rfl rfl
    (by decide)⟩

/-! ## C11: failure paths of `cng_store_open` -/

/-- C11: `cng_store_open` returns NULL when the provider context or the URI is
null, the URI is malformed, an allocation fails or the store fails to open; the
trace of the failed call is one of five shapes, in each of which what was
acquired has been released before the return (the key object by
`cng_keymgmt_free`, then the session memory), so that no resource stays live. -/
theorem C11_open_failure_releases (P : Platform) (provctx : Option Nat)
    (uri : Option CString)
    (h : provctx = none ∨ uri = none ∨
      (parse_uri_from_store_open init_store_ctx uri).ret = 0 ∨
      P.malloc_store_ctx_ok = false ∨ P.cng_keymgmt_new_ok = false ∨
      P.CertOpenStore
        ((parse_uri_from_store_open init_store_ctx uri).store_ctx.store_location_flag.getD 0)
        ((parse_uri_from_store_open init_store_ctx uri).store_ctx.windows_system_store_name.getD
          "") = none) :
    ∃ tr, cng_store_open P provctx uri = Except.ok (none, tr) ∧ live_resources tr = [] ∧
      open_failure_trace tr := by
  unfold open_failure_trace
  obtain ⟨-, -, -, -, -, hkey, -⟩ := parse_frame init_store_ctx uri
  have hk : (parse_uri_from_store_open init_store_ctx uri).store_ctx.key =
      cng_keymgmt_new_keydata := by rw [hkey]; rfl
  simp only [cng_store_open]
  split_ifs with h1 h2 h3 h4 h5
  · exact ⟨_, rfl, rfl, Or.inl rfl⟩
  · exact ⟨_, rfl, rfl, Or.inr (Or.inl rfl)⟩
  · exact ⟨_, rfl, rfl, Or.inr (Or.inr (Or.inl rfl))⟩
  · refine ⟨_, rfl, ?_, Or.inr (Or.inr (Or.inr (Or.inl ?_)))⟩
    · rw [hk]; rfl
    · rw [hk]; rfl
  · have hs : P.CertOpenStore
        ((parse_uri_from_store_open init_store_ctx uri).store_ctx.store_location_flag.getD 0)
        ((parse_uri_from_store_open init_store_ctx uri).store_ctx.windows_system_store_name.getD
          "") = none := by
      by_contra hne
      obtain ⟨certs, hc⟩ := Option.ne_none_iff_exists'.1 hne
      simp [initialize_windows_cert_store, hc] at h5
    refine ⟨_, rfl, ?_, Or.inr (Or.inr (Or.inr (Or.inr
      ⟨(parse_uri_from_store_open init_store_ctx uri).store_ctx.store_location_flag.getD 0,
       (parse_uri_from_store_open init_store_ctx uri).store_ctx.windows_system_store_name.getD
        "", ?_⟩)))⟩
    · simp only [initialize_windows_cert_store, hs, hk]
      rfl
    · simp only [initialize_windows_cert_store, hs, hk]
      rfl
  · exfalso
    rcases h with h | h | h | h | h | h
    · subst h; simp [are_store_open_args_ok] at h1
    · subst h; cases provctx <;> simp [are_store_open_args_ok] at h1
    · exact h4 h
    · exact h2 h
    · exact h3 h
    · simp [initialize_windows_cert_store, h] at h5

/-- A null provider context, and a store that does not open. -/
theorem C11_open_failure_releases_witness :
    (∃ tr, cng_store_open example_platform none (some (cstr "cng://MY")) =
      Except.ok (none, tr) ∧ live_resources tr = [] ∧ open_failure_trace tr) ∧
    (∃ tr, cng_store_open example_platform (some 1) (some (cstr "cng://ROOT")) =
      Except.ok (none, tr) ∧ live_resources tr = [] ∧ open_failure_trace tr) :=
  ⟨C11_open_failure_releases example_platform none (some (cstr "cng://MY")) (Or.inl rfl),
   C11_open_failure_releases example_platform (some 1) (some (cstr "cng://ROOT"))
    (Or.inr (Or.inr (Or.inr (Or.inr (Or.inr (by decide))))))⟩

/-! ## C12, C13, C17: the skip loop -/

/-- The skip loop with its trace: the result of `privkey_loop_spec`, the events
appended being `skip_events`. -/
theorem privkey_loop_trace (P : Platform) : ∀ (fuel : Nat) (m : Machine),
    m.store_ctx.priv_key_store_eof = false →
    (store_certs m).length - start_index m.store_ctx.prev_key_cert_ctx + 1 ≤ fuel →
    privkey_loop P fuel m = Except.ok
      (match scan P ((store_certs m).drop (start_index m.store_ctx.prev_key_cert_ctx))
          (start_index m.store_ctx.prev_key_cert_ctx) with
       | some (j, h) => (1, key_found m
          (skip_events P ((store_certs m).drop (start_index m.store_ctx.prev_key_cert_ctx))
            (start_index m.store_ctx.prev_key_cert_ctx) m.store_ctx.prev_key_cert_ctx) j h)
       | none => (0, key_exhausted m
          (skip_events P ((store_certs m).drop (start_index m.store_ctx.prev_key_cert_ctx))
            (start_index m.store_ctx.prev_key_cert_ctx) m.store_ctx.prev_key_cert_ctx))) := by
  intro fuel
  induction fuel with
  | zero => intro m _ h; omega
  | succ fuel ih =>
    intro m heof hfuel
    unfold privkey_loop
    simp only [heof, Bool.false_eq_true, if_false]
    rw [enum_eq]
    by_cases hlt : start_index m.store_ctx.prev_key_cert_ctx < (store_certs m).length
    · have hstore : store_certs m = m.store_ctx.windows_certificate_store.getD [] := rfl
      rw [← hstore]
      simp only [hlt, if_true]
      obtain ⟨c, rest, hdrop⟩ : ∃ c rest, (store_certs m).drop
          (start_index m.store_ctx.prev_key_cert_ctx) = c :: rest := by
        cases hd : (store_certs m).drop (start_index m.store_ctx.prev_key_cert_ctx) with
        | nil => simp at hd; omega
        | cons c rest => exact ⟨c, rest, rfl⟩
      have hget : (store_certs m).get? (start_index m.store_ctx.prev_key_cert_ctx) = some c := by
        rw [List.get?_eq_getElem?, ← List.head?_drop, hdrop]; rfl
      have hrest : (store_certs m).drop (start_index m.store_ctx.prev_key_cert_ctx + 1) = rest := by
        have := List.drop_drop 1 (start_index m.store_ctx.prev_key_cert_ctx) (store_certs m)
        rw [hdrop] at this
        simpa [Nat.add_comm] using this.symm
      rw [deref_eq, ← hstore, hget, hdrop]
      have reject : qualifying_handle P c = none →
          privkey_loop P fuel
            (key_skipped m (start_index m.store_ctx.prev_key_cert_ctx) c.private_key
              (c.private_key.map (fun k => k.handle))) =
            Except.ok
            (match scan P (c :: rest) (start_index m.store_ctx.prev_key_cert_ctx) with
             | some (j, h) => (1, key_found m
                (skip_events P (c :: rest) (start_index m.store_ctx.prev_key_cert_ctx)
                  m.store_ctx.prev_key_cert_ctx) j h)
             | none => (0, key_exhausted m
                (skip_events P (c :: rest) (start_index m.store_ctx.prev_key_cert_ctx)
                  m.store_ctx.prev_key_cert_ctx))) := by
        intro hq
        have hrun := ih
          (key_skipped m (start_index m.store_ctx.prev_key_cert_ctx) c.private_key
            (c.private_key.map (fun k => k.handle))) rfl
          (by show (store_certs m).length - (start_index m.store_ctx.prev_key_cert_ctx + 1) + 1 ≤ fuel; omega)
        rw [hrun]
        have hs : store_certs (key_skipped m (start_index m.store_ctx.prev_key_cert_ctx)
            c.private_key (c.private_key.map (fun k => k.handle))) = store_certs m := rfl
        have hp : (key_skipped m (start_index m.store_ctx.prev_key_cert_ctx)
            c.private_key (c.private_key.map (fun k => k.handle))).store_ctx.prev_key_cert_ctx =
            some (start_index m.store_ctx.prev_key_cert_ctx) := rfl
        rw [hs, hp]
        have hsi : start_index (some (start_index m.store_ctx.prev_key_cert_ctx)) =
            start_index m.store_ctx.prev_key_cert_ctx + 1 := rfl
        rw [hsi, hrest]
        simp only [scan, skip_events, hq]
        cases scan P rest (start_index m.store_ctx.prev_key_cert_ctx + 1) with
        | none => simp [key_exhausted, key_skipped, List.append_assoc]
        | some jh => simp [key_found, key_skipped, List.append_assoc]
      simp only [Option.some_bind, Option.isNone_some]
      cases hk : c.private_key with
      | none =>
        have hq : qualifying_handle P c = none := by simp [qualifying_handle, hk]
        simpa [hk, key_skipped] using reject hq
      | some k =>
        simp only []
        by_cases hspec : k.key_spec ≠ CERT_NCRYPT_KEY_SPEC ∨ k.caller_must_free ≠ true
        · have hq : qualifying_handle P c = none := by
            simp only [qualifying_handle, hk]
            rw [if_neg]
            intro h; rcases hspec with h1 | h1
            · exact h1 h.1
            · exact h1 h.2.1
          rw [if_pos hspec]
          simpa [hk, key_skipped] using reject hq
        · rw [if_neg hspec]
          cases hname : get_key_algorithm_name P k.handle with
          | none =>
            have hq : qualifying_handle P c = none := by
              simp [qualifying_handle, hk, hname]
            simpa [hk, key_skipped] using reject hq
          | some nm =>
            have hq : qualifying_handle P c = some k.handle := by
              simp only [qualifying_handle, hk]
              rw [if_pos]
              push_neg at hspec
              exact ⟨hspec.1, hspec.2, by simp [hname]⟩
            simp [scan, skip_events, hq, hk, key_found, List.append_assoc]
    · have hstore : store_certs m = m.store_ctx.windows_certificate_store.getD [] := rfl
      rw [← hstore]
      simp only [hlt, if_false]
      have hdrop : (store_certs m).drop (start_index m.store_ctx.prev_key_cert_ctx) = [] := by
        simp; omega
      rw [hdrop]
      rfl

theorem fetch_count_skip_events (P : Platform) : ∀ (rest : List CERT_CONTEXT) (s : Nat)
    (prev : PCCERT_CONTEXT), fetch_count (skip_events P rest s prev) ≤ rest.length + 1 := by
  intro rest
  induction rest with
  | nil => intro s prev; simp [skip_events, fetch_count]
  | cons c cs ih =>
    intro s prev
    simp only [skip_events, fetch_count, List.length_cons]
    cases qualifying_handle P c with
    | some h => simp [fetch_count]
    | none =>
      have := ih (s + 1) (some s)
      simp only [fetch_count]
      omega

/-- C17: on every state the skip loop returns: with any bound of at least
`r + 1` iterations, `r` being the number of store entries after the position of
the key sub-cursor, it gives the result of
`load_another_privkey_from_store_into_context`, never the bound fault; and the
call fetches at most `r + 1` entries from the platform enumerator. -/
theorem C17_skip_loop_terminates (P : Platform) (m : Machine) :
    (∀ fuel, (store_certs m).length - start_index m.store_ctx.prev_key_cert_ctx + 1 ≤ fuel →
      privkey_loop P fuel m = load_another_privkey_from_store_into_context P m) ∧
    ∃ ret m1 new, load_another_privkey_from_store_into_context P m = Except.ok (ret, m1) ∧
      m1.trace = m.trace ++ new ∧
      fetch_count new ≤
        (store_certs m).length - start_index m.store_ctx.prev_key_cert_ctx + 1 := by
  have hfuel0 : (store_certs m).length - start_index m.store_ctx.prev_key_cert_ctx + 1 ≤
      store_size m + 1 := by rw [store_size_eq]; omega
  cases heof : m.store_ctx.priv_key_store_eof with
  | true =>
    refine ⟨fun fuel hf => ?_, 0, m, [], load_privkey_eof P m heof, by simp, by simp [fetch_count]⟩
    rw [load_privkey_eof P m heof]
    cases fuel with
    | zero => omega
    | succ n => simp [privkey_loop, heof]
  | false =>
    have htop := privkey_loop_trace P (store_size m + 1) m heof hfuel0
    refine ⟨fun fuel hf => ?_, ?_⟩
    · unfold load_another_privkey_from_store_into_context
      rw [htop, privkey_loop_trace P fuel m heof hf]
    · unfold load_another_privkey_from_store_into_context
      rw [htop]
      have hcount := fetch_count_skip_events P
        ((store_certs m).drop (start_index m.store_ctx.prev_key_cert_ctx))
        (start_index m.store_ctx.prev_key_cert_ctx) m.store_ctx.prev_key_cert_ctx
      rw [List.length_drop] at hcount
      cases scan P ((store_certs m).drop (start_index m.store_ctx.prev_key_cert_ctx))
          (start_index m.store_ctx.prev_key_cert_ctx) with
      | none => exact ⟨0, _, _, rfl, rfl, hcount⟩
      | some jh => exact ⟨1, _, _, rfl, rfl, hcount⟩

/-- The example session: one entry remains after the key sub-cursor, and a bound
of two iterations suffices. -/
theorem C17_skip_loop_terminates_witness :
    privkey_loop example_platform 2 example_session =
      load_another_privkey_from_store_into_context example_platform example_session :=
  (C17_skip_loop_terminates example_platform example_session).1 2 (by decide)

theorem qualifying_handle_some_iff (P : Platform) (c : CERT_CONTEXT) (h : NCRYPT_KEY_HANDLE) :
    qualifying_handle P c = some h ↔
      ∃ k, c.private_key = some k ∧ k.key_spec = CERT_NCRYPT_KEY_SPEC ∧
        k.caller_must_free = true ∧ get_key_algorithm_name P k.handle ≠ none ∧
        h = k.handle := by
  unfold qualifying_handle
  cases hk : c.private_key with
  | none => simp
  | some k =>
    simp only [Option.some.injEq, exists_eq_left']
    constructor
    · intro hq
      split_ifs at hq with hc
      simp only [Option.some.injEq] at hq
      exact ⟨hc.1, hc.2.1, by simpa [Option.isSome_iff_ne_none] using hc.2.2, hq.symm⟩
    · rintro ⟨h1, h2, h3, rfl⟩
      rw [if_pos ⟨h1, h2, by simpa [Option.isSome_iff_ne_none] using h3⟩]

theorem qualifying_handle_none_iff (P : Platform) (c : CERT_CONTEXT) :
    qualifying_handle P c = none ↔ ¬ four_conditions P c := by
  unfold four_conditions
  constructor
  · rintro hq ⟨k, h1, h2, h3, h4⟩
    have := (qualifying_handle_some_iff P c k.handle).2 ⟨k, h1, h2, h3, h4, rfl⟩
    rw [hq] at this
    exact Option.noConfusion this
  · intro hn
    cases hq : qualifying_handle P c with
    | none => rfl
    | some h =>
      obtain ⟨k, h1, h2, h3, h4, -⟩ := (qualifying_handle_some_iff P c h).1 hq
      exact absurd ⟨k, h1, h2, h3, h4⟩ hn

/-- What `scan` finds is the first entry with a qualifying handle. -/
theorem scan_first (P : Platform) : ∀ (rest : List CERT_CONTEXT) (s j : Nat)
    (h : NCRYPT_KEY_HANDLE), scan P rest s = some (j, h) →
    ∃ k c, j = s + k ∧ rest.get? k = some c ∧ qualifying_handle P c = some h ∧
      ∀ i c1, i < k → rest.get? i = some c1 → qualifying_handle P c1 = none := by
  intro rest
  induction rest with
  | nil => intro s j h hs; simp [scan] at hs
  | cons c cs ih =>
    intro s j h hs
    unfold scan at hs
    cases hq : qualifying_handle P c with
    | some x =>
      simp only [hq, Option.some.injEq, Prod.mk.injEq] at hs
      obtain ⟨rfl, rfl⟩ := hs
      exact ⟨0, c, rfl, rfl, hq, fun i c1 hi _ => absurd hi (Nat.not_lt_zero i)⟩
    | none =>
      simp only [hq] at hs
      obtain ⟨k, c2, hj, hget, hq2, hfirst⟩ := ih (s + 1) j h hs
      refine ⟨k + 1, c2, by omega, by simpa using hget, hq2, ?_⟩
      intro i c1 hi hgi
      cases i with
      | zero =>
        simp only [List.get?_cons_zero, Option.some.injEq] at hgi
        subst hgi; exact hq
      | succ i => exact hfirst i c1 (by omega) (by simpa using hgi)

/-- When `scan` finds nothing, no entry has a qualifying handle. -/
theorem scan_none_all (P : Platform) : ∀ (rest : List CERT_CONTEXT) (s : Nat),
    scan P rest s = none →
    ∀ i c, rest.get? i = some c → qualifying_handle P c = none := by
  intro rest
  induction rest with
  | nil => intro s _ i c hg; simp at hg
  | cons c cs ih =>
    intro s hs i c1 hg
    unfold scan at hs
    cases hq : qualifying_handle P c with
    | some x => simp [hq] at hs
    | none =>
      simp only [hq] at hs
      cases i with
      | zero =>
        simp only [List.get?_cons_zero, Option.some.injEq] at hg
        subst hg; exact hq
      | succ i => exact ih (s + 1) hs i c1 (by simpa using hg)

/-- C12: a call of the advance function on an active key sub-cursor returns 1
with the cursor on entry `j` iff `j` is the first entry after the previous
cursor position that meets all four acceptance conditions, and then the cached
handle is the handle acquired for entry `j`; it returns 0, with the sub-cursor
exhausted, iff no entry after the previous position meets them. -/
theorem C12_acceptance (P : Platform) (m : Machine)
    (heof : m.store_ctx.priv_key_store_eof = false) :
    ∃ ret m1, load_another_privkey_from_store_into_context P m = Except.ok (ret, m1) ∧
      (ret = 1 ∨ ret = 0) ∧
      (∀ j, (ret = 1 ∧ m1.store_ctx.prev_key_cert_ctx = some j) ↔
        first_accepted P (store_certs m) (start_index m.store_ctx.prev_key_cert_ctx) j) ∧
      (∀ j, ret = 1 → m1.store_ctx.prev_key_cert_ctx = some j →
        ∃ c k, (store_certs m).get? j = some c ∧ c.private_key = some k ∧
          m1.store_ctx.key.windows_key_handle = some k.handle) ∧
      (ret = 0 ↔ ∀ i c, start_index m.store_ctx.prev_key_cert_ctx ≤ i →
        (store_certs m).get? i = some c → ¬ four_conditions P c) ∧
      (ret = 0 → m1.store_ctx.priv_key_store_eof = true) := by
  obtain ⟨new, -, hrun⟩ := load_privkey_spec P m heof
  have hidx : ∀ k, ((store_certs m).drop (start_index m.store_ctx.prev_key_cert_ctx)).get? k =
      (store_certs m).get? (start_index m.store_ctx.prev_key_cert_ctx + k) := by
    intro k; simp [List.get?_eq_getElem?, List.getElem?_drop]
  cases hsc : scan P ((store_certs m).drop (start_index m.store_ctx.prev_key_cert_ctx))
      (start_index m.store_ctx.prev_key_cert_ctx) with
  | none =>
    rw [hsc] at hrun
    have hall := scan_none_all P _ _ hsc
    have hnone : ∀ i c, start_index m.store_ctx.prev_key_cert_ctx ≤ i →
        (store_certs m).get? i = some c → ¬ four_conditions P c := by
      intro i c hi hg
      have := hall (i - start_index m.store_ctx.prev_key_cert_ctx) c
        (by rw [hidx]; rw [Nat.add_sub_cancel' hi]; exact hg)
      exact (qualifying_handle_none_iff P c).1 this
    refine ⟨0, _, hrun, Or.inr rfl, ?_, ?_, ?_, fun _ => rfl⟩
    · intro j
      constructor
      · rintro ⟨h, -⟩; exact absurd h (by decide)
      · rintro ⟨hj, ⟨c, hg, hf⟩, -⟩
        exact absurd hf (hnone j c hj hg)
    · intro j h; exact absurd h (by decide)
    · exact ⟨fun _ => hnone, fun _ => rfl⟩
  | some jh =>
    obtain ⟨j0, h0⟩ := jh
    rw [hsc] at hrun
    obtain ⟨k, c, hj, hg, hq, hfirst⟩ := scan_first P _ _ j0 h0 hsc
    rw [hidx, ← hj] at hg
    obtain ⟨key, hpk, h1, h2, h3, hh⟩ := (qualifying_handle_some_iff P c h0).1 hq
    have hfa : first_accepted P (store_certs m)
        (start_index m.store_ctx.prev_key_cert_ctx) j0 := by
      refine ⟨by omega, ⟨c, hg, key, hpk, h1, h2, h3⟩, ?_⟩
      intro i c1 hi hlt hgi
      apply (qualifying_handle_none_iff P c1).1
      apply hfirst (i - start_index m.store_ctx.prev_key_cert_ctx) c1 (by omega)
      rw [hidx, Nat.add_sub_cancel' hi]; exact hgi
    refine ⟨1, _, hrun, Or.inl rfl, ?_, ?_, ?_, fun h => absurd h (by decide)⟩
    · intro j
      constructor
      · rintro ⟨-, hp⟩
        simp only [key_found, Option.some.injEq] at hp
        subst hp; exact hfa
      · rintro ⟨hj1, ⟨c1, hg1, hf1⟩, hbefore⟩
        refine ⟨rfl, ?_⟩
        simp only [key_found, Option.some.injEq]
        rcases Nat.lt_trichotomy j0 j with hlt | heq | hgt
        · exact absurd ⟨key, hpk, h1, h2, h3⟩ (hbefore j0 c hfa.1 hlt hg)
        · exact heq
        · exact absurd hf1 (hfa.2.2 j c1 hj1 hgt hg1)
    · intro j _ hp
      simp only [key_found, Option.some.injEq] at hp
      subst hp
      exact ⟨c, key, hg, hpk, by simp [key_found, hh]⟩
    · constructor
      · intro h; exact absurd h (by decide)
      · intro hnone
        exact absurd ⟨key, hpk, h1, h2, h3⟩ (hnone j0 c hfa.1 hg)

/-- The example session: the entry after the cursor has no private key, so the
advance function returns 0. -/
theorem C12_acceptance_witness :
    ∃ ret m1, load_another_privkey_from_store_into_context example_platform example_session =
        Except.ok (ret, m1) ∧
      (ret = 1 ∨ ret = 0) ∧
      (∀ j, (ret = 1 ∧ m1.store_ctx.prev_key_cert_ctx = some j) ↔
        first_accepted example_platform (store_certs example_session)
          (start_index example_session.store_ctx.prev_key_cert_ctx) j) ∧
      (∀ j, ret = 1 → m1.store_ctx.prev_key_cert_ctx = some j →
        ∃ c k, (store_certs example_session).get? j = some c ∧ c.private_key = some k ∧
          m1.store_ctx.key.windows_key_handle = some k.handle) ∧
      (ret = 0 ↔ ∀ i c, start_index example_session.store_ctx.prev_key_cert_ctx ≤ i →
        (store_certs example_session).get? i = some c → ¬ four_conditions example_platform c) ∧
      (ret = 0 → m1.store_ctx.priv_key_store_eof = true) :=
  C12_acceptance example_platform example_session rfl

/-- C13 fails on the code: the entry after the cursor of the example session has
no private key, so its acquisition writes no handle; the advance function still
issues `NCryptFreeObject` for it (on the unwritten `tmp_key_handle`) before it
fetches the next entry. The same is seen in the whole session: open, then
three loads. -/
theorem C13_release_issued_without_handle :
    load_another_privkey_from_store_into_context example_platform example_session =
      Except.ok (0, key_exhausted example_session
        [Event.CertEnumCertificatesInStore (some 0) (some 1),
         Event.CryptAcquireCertificatePrivateKey 1 none,
         Event.NCryptFreeObject none,
         Event.CertEnumCertificatesInStore (some 1) none]) ∧
    ∃ m, open_and_run_state example_platform (some 1) (some (cstr "cng://MY"))
        [Call.load (fun _ => 1), Call.load (fun _ => 1), Call.load (fun _ => 1)] =
        Except.ok (some m) ∧
      acquired_handles m.trace = [7] ∧
      Event.CryptAcquireCertificatePrivateKey 1 none ∈ m.trace ∧
      Event.NCryptFreeObject none ∈ m.trace := by
  refine ⟨by decide, _, rfl, ?_, ?_, ?_⟩ <;> decide

/-! ## C14: the key type classifier -/

/-- C14: `get_key_algorithm_name` returns "rsaEncryption" iff the size query and
the read query both succeed and the group read is the RSA algorithm group; it
returns NULL in every other case and never another name. -/
theorem C14_algorithm_name (P : Platform) (key : NCRYPT_KEY_HANDLE) :
    (get_key_algorithm_name P key = some "rsaEncryption" ↔
      size_query_succeeds P key ∧ read_query_succeeds P key ∧
        (P.NCryptGetProperty key).value = NCRYPT_RSA_ALGORITHM_GROUP) ∧
    (get_key_algorithm_name P key = none ↔
      ¬ (size_query_succeeds P key ∧ read_query_succeeds P key ∧
        (P.NCryptGetProperty key).value = NCRYPT_RSA_ALGORITHM_GROUP)) ∧
    (get_key_algorithm_name P key = some "rsaEncryption" ∨
      get_key_algorithm_name P key = none) := by
  unfold get_key_algorithm_name size_query_succeeds read_query_succeeds
  simp only
  by_cases h1 : (P.NCryptGetProperty key).size_status = ERROR_SUCCESS
  · by_cases h2 : (P.NCryptGetProperty key).malloc_ok = true
    · by_cases h3 : (P.NCryptGetProperty key).read_status = ERROR_SUCCESS
      · by_cases h4 : (P.NCryptGetProperty key).value = NCRYPT_RSA_ALGORITHM_GROUP
        · simp [h1, h2, h3, h4]
        · simp [h1, h2, h3, h4]
      · simp [h1, h2, h3]
    · simp [h1, h2]
  · simp [h1]

/-! ## C15: the expected-object-kind hint -/

theorem load_privkey_hint (P : Platform) (m : Machine) (e : Option Int) :
    load_another_privkey_from_store_into_context P (with_hint e m) =
      (load_another_privkey_from_store_into_context P m).map
        (fun x => (x.1, with_hint e x.2)) := by
  cases heof : m.store_ctx.priv_key_store_eof with
  | true =>
    rw [load_privkey_eof P m heof, load_privkey_eof P (with_hint e m) heof]
    rfl
  | false =>
    have h1 := privkey_loop_trace P (store_size m + 1) m heof
      (by rw [store_size_eq]; omega)
    have h2 := privkey_loop_trace P (store_size m + 1) (with_hint e m) heof
      (by rw [store_size_eq]; show (store_certs m).length - _ + 1 ≤ _; omega)
    unfold load_another_privkey_from_store_into_context
    have hs : store_size (with_hint e m) = store_size m := rfl
    rw [hs, h1, h2]
    have hc : store_certs (with_hint e m) = store_certs m := rfl
    have hp : (with_hint e m).store_ctx.prev_key_cert_ctx = m.store_ctx.prev_key_cert_ctx := rfl
    rw [hc, hp]
    cases scan P ((store_certs m).drop (start_index m.store_ctx.prev_key_cert_ctx))
        (start_index m.store_ctx.prev_key_cert_ctx) <;> rfl

theorem cng_store_load_hint (P : Platform) (m : Machine) (e : Option Int)
    (cb : OSSL_CALLBACK) :
    cng_store_load P (with_hint e m) cb =
      (cng_store_load P m cb).map (fun x => (x.1, with_hint e x.2)) := by
  unfold cng_store_load
  have hce : (with_hint e m).store_ctx.cert_store_eof = m.store_ctx.cert_store_eof := rfl
  have hke : (with_hint e m).store_ctx.priv_key_store_eof =
      m.store_ctx.priv_key_store_eof := rfl
  rw [hce, hke]
  cases hc : m.store_ctx.cert_store_eof with
  | false =>
    simp only [Bool.not_false, if_true]
    unfold load_another_cert
    have hd : deref (with_hint e m).store_ctx.windows_certificate_store
        (with_hint e m).store_ctx.prev_cert_ctx =
        deref m.store_ctx.windows_certificate_store m.store_ctx.prev_cert_ctx := rfl
    rw [hd]
    cases deref m.store_ctx.windows_certificate_store m.store_ctx.prev_cert_ctx with
    | none => rfl
    | some c => rfl
  | true =>
    simp only [Bool.not_true, Bool.false_eq_true, if_false]
    cases hk : m.store_ctx.priv_key_store_eof with
    | true => rfl
    | false =>
      simp only [Bool.not_false, if_true]
      unfold load_another_private_key
      rw [hke, hk]
      simp only [Bool.false_eq_true, if_false]
      have hobj : (with_hint e m).store_ctx.key = m.store_ctx.key := rfl
      rw [hobj]
      by_cases hcb : cb (OSSL_OBJECT.PKEY
          (m.store_ctx.key.windows_key_handle.bind (get_key_algorithm_name P))
          m.store_ctx.key) = 0
      · simp only [hcb, if_true]
        rfl
      · simp only [hcb, if_false]
        have := load_privkey_hint P (key_offered P m cb) e
        have e1 : ({ with_hint e m with trace := (with_hint e m).trace ++
            [Event.object_cb (OSSL_OBJECT.PKEY
              (m.store_ctx.key.windows_key_handle.bind (get_key_algorithm_name P))
              m.store_ctx.key) (cb (OSSL_OBJECT.PKEY
              (m.store_ctx.key.windows_key_handle.bind (get_key_algorithm_name P))
              m.store_ctx.key))] } : Machine) = with_hint e (key_offered P m cb) := rfl
        have e2 : ({ m with trace := m.trace ++
            [Event.object_cb (OSSL_OBJECT.PKEY
              (m.store_ctx.key.windows_key_handle.bind (get_key_algorithm_name P))
              m.store_ctx.key) (cb (OSSL_OBJECT.PKEY
              (m.store_ctx.key.windows_key_handle.bind (get_key_algorithm_name P))
              m.store_ctx.key))] } : Machine) = key_offered P m cb := rfl
        rw [e1, e2, this]
        cases load_another_privkey_from_store_into_context P (key_offered P m cb) with
        | error f => rfl
        | ok x => rfl

theorem step_hint (P : Platform) (m : Machine) (e : Option Int) (c : Call)
    (hc : load_or_eof c) :
    step P (with_hint e m) c = (step P m c).map (fun x => (x.1, with_hint e x.2)) := by
  cases c with
  | eof => rfl
  | set_ctx_params ps => exact absurd hc id
  | load cb =>
    simp only [step, cng_store_load_hint]
    cases cng_store_load P m cb with
    | error f => rfl
    | ok x => rfl

theorem run_hint (P : Platform) (e : Option Int) : ∀ (calls : List Call) (m : Machine),
    (∀ c ∈ calls, load_or_eof c) →
    run P (with_hint e m) calls = (run P m calls).map (fun x => (x.1, with_hint e x.2)) := by
  intro calls
  induction calls with
  | nil => intro m _; rfl
  | cons c cs ih =>
    intro m hcs
    simp only [run]
    rw [step_hint P m e c (hcs c (List.mem_cons_self _ _))]
    cases step P m c with
    | error f => rfl
    | ok x =>
      obtain ⟨r, m1⟩ := x
      simp only [Except.map]
      rw [ih m1 (fun c1 h1 => hcs c1 (List.mem_cons_of_mem _ h1))]
      cases run P m1 cs with
      | error f => rfl
      | ok y => rfl

/-- C15: the expected-object-kind hint is advisory.  `cng_store_set_ctx_params`
changes nothing but the hint, and for two sessions that differ only in the hint
every sequence of loads and eof queries has the same outcome: the same return
values and emitted objects, and final states (cursors and trace) that differ
only in the hint. -/
theorem C15_hint_is_advisory (P : Platform) (m : Machine) (e1 e2 : Option Int)
    (calls : List Call) (hcalls : ∀ c ∈ calls, load_or_eof c) :
    run P (with_hint e2 m) calls =
      (run P (with_hint e1 m) calls).map (fun x => (x.1, with_hint e2 x.2)) ∧
    ∀ params, ∃ e, cng_store_set_ctx_params m params = (1, with_hint e m) := by
  constructor
  · rw [run_hint P e2 calls m hcalls, run_hint P e1 calls m hcalls]
    cases run P m calls with
    | error f => rfl
    | ok x => rfl
  · intro params
    unfold cng_store_set_ctx_params
    cases params with
    | none => exact ⟨m.store_ctx.expected_parameter_type, rfl⟩
    | some ps =>
      simp only
      cases OSSL_PARAM_locate_const ps OSSL_STORE_PARAM_EXPECT with
      | none => exact ⟨m.store_ctx.expected_parameter_type, rfl⟩
      | some p => exact ⟨some p.data, rfl⟩

/-- The example session with the hint unset and with the hint set to 4, under
loads and eof queries. -/
theorem C15_hint_is_advisory_witness :
    run example_platform (with_hint (some 4) example_session)
        [Call.load (fun _ => 1), Call.eof, Call.load (fun _ => 0), Call.load (fun _ => 1)] =
      (run example_platform (with_hint none example_session)
        [Call.load (fun _ => 1), Call.eof, Call.load (fun _ => 0), Call.load (fun _ => 1)]).map
        (fun x => (x.1, with_hint (some 4) x.2)) :=
  (C15_hint_is_advisory example_platform example_session none (some 4) _
    (by
      intro c hc
      simp only [List.mem_cons, List.mem_singleton, List.not_mem_nil, or_false] at hc
      rcases hc with rfl | rfl | rfl | rfl <;> exact trivial)).1

/-! ## C16, C19: independence of the sub-cursors, rejection -/

/-- C16: a load while the certificate sub-cursor is active leaves the key
sub-cursor (`prev_key_cert_ctx`, `priv_key_store_eof`, the cached key handle)
unchanged; a load after the certificate sub-cursor is exhausted returns and
leaves the certificate sub-cursor (`prev_cert_ctx`, `cert_store_eof`)
unchanged. -/
theorem C16_cursors_independent (P : Platform) (m : Machine) (cb : OSSL_CALLBACK) :
    (m.store_ctx.cert_store_eof = false →
      ∀ r m1, cng_store_load P m cb = Except.ok (r, m1) →
        m1.store_ctx.prev_key_cert_ctx = m.store_ctx.prev_key_cert_ctx ∧
        m1.store_ctx.priv_key_store_eof = m.store_ctx.priv_key_store_eof ∧
        m1.store_ctx.key = m.store_ctx.key) ∧
    (m.store_ctx.cert_store_eof = false →
      ∀ c, deref m.store_ctx.windows_certificate_store m.store_ctx.prev_cert_ctx = some c →
        ∃ m1, cng_store_load P m cb = Except.ok (1, m1)) ∧
    (m.store_ctx.cert_store_eof = true →
      ∃ r m1, cng_store_load P m cb = Except.ok (r, m1) ∧
        m1.store_ctx.prev_cert_ctx = m.store_ctx.prev_cert_ctx ∧
        m1.store_ctx.cert_store_eof = m.store_ctx.cert_store_eof) := by
  refine ⟨?_, ?_, ?_⟩
  · intro hc r m1 hl
    cases hd : deref m.store_ctx.windows_certificate_store m.store_ctx.prev_cert_ctx with
    | none => simp [cng_store_load, hc, load_another_cert, hd] at hl
    | some c =>
      rw [(load_cert_step P m cb c hc hd).1] at hl
      simp only [Except.ok.injEq, Prod.mk.injEq] at hl
      obtain ⟨-, rfl⟩ := hl
      exact ⟨rfl, rfl, rfl⟩
  · intro hc c hd
    exact ⟨_, (load_cert_step P m cb c hc hd).1⟩
  · intro hc
    cases hk : m.store_ctx.priv_key_store_eof with
    | true =>
      refine ⟨0, m, ?_, rfl, rfl⟩
      simp [cng_store_load, hc, hk]
    | false =>
      by_cases hcb : cb (pkey_object P m) = 0
      · exact ⟨0, _, load_key_rejected P m cb hc hk hcb, rfl, rfl⟩
      · obtain ⟨new, -, hl, -⟩ := load_key_step P m cb hc hk hcb
        refine ⟨1, _, hl, ?_, ?_⟩
        · cases scan P ((store_certs m).drop (start_index m.store_ctx.prev_key_cert_ctx))
            (start_index m.store_ctx.prev_key_cert_ctx) <;> rfl
        · cases scan P ((store_certs m).drop (start_index m.store_ctx.prev_key_cert_ctx))
            (start_index m.store_ctx.prev_key_cert_ctx) <;> rfl

/-- The example session with an active certificate sub-cursor, and with the
certificate sub-cursor exhausted. -/
theorem C16_cursors_independent_witness :
    (∃ m1, cng_store_load example_platform example_session (fun _ => 1) = Except.ok (1, m1)) ∧
    (∃ r m1, cng_store_load example_platform example_session_keys (fun _ => 1) =
        Except.ok (r, m1) ∧
      m1.store_ctx.prev_cert_ctx = example_session_keys.store_ctx.prev_cert_ctx ∧
      m1.store_ctx.cert_store_eof = example_session_keys.store_ctx.cert_store_eof) :=
  ⟨(C16_cursors_independent example_platform example_session (fun _ => 1)).2.1 rfl _ rfl,
   (C16_cursors_independent example_platform example_session_keys (fun _ => 1)).2.2 rfl⟩

/-- C19: when the callback rejects the private-key object, the load returns 0
and leaves the store context as it was (key sub-cursor, cached handle and
exhaustion flags), so the next load builds the same private-key object; when
the callback rejects a certificate object, the load still returns 1 and the
certificate sub-cursor has moved on from the rejected certificate, to the next
certificate or to exhaustion. -/
theorem C19_rejection_and_consumption (P : Platform) (m : Machine) (cb : OSSL_CALLBACK) :
    (m.store_ctx.cert_store_eof = true → m.store_ctx.priv_key_store_eof = false →
      cb (pkey_object P m) = 0 →
      ∃ m1, cng_store_load P m cb = Except.ok (0, m1) ∧ m1.store_ctx = m.store_ctx ∧
        m1.trace = m.trace ++ [Event.object_cb (pkey_object P m) 0] ∧
        pkey_object P m1 = pkey_object P m) ∧
    (∀ certs i c, m.store_ctx.windows_certificate_store = some certs →
      m.store_ctx.cert_store_eof = false → m.store_ctx.prev_cert_ctx = some i →
      certs.get? i = some c → cb (OSSL_OBJECT.CERT c.pbCertEncoded) = 0 →
      ∃ m1, cng_store_load P m cb = Except.ok (1, m1) ∧
        m1.store_ctx.prev_cert_ctx = (if i + 1 < certs.length then some (i + 1) else none) ∧
        m1.store_ctx.cert_store_eof = decide (¬ i + 1 < certs.length) ∧
        m1.store_ctx.prev_cert_ctx ≠ m.store_ctx.prev_cert_ctx) := by
  constructor
  · intro hc hk hrej
    refine ⟨_, load_key_rejected P m cb hc hk hrej, rfl, ?_, rfl⟩
    simp [key_offered, hrej]
  · intro certs i c hs hc hp hg _
    have hd : deref m.store_ctx.windows_certificate_store m.store_ctx.prev_cert_ctx =
        some c := by rw [hs, hp]; simpa [deref] using hg
    refine ⟨_, (load_cert_step P m cb c hc hd).1, ?_, ?_, ?_⟩
    · rw [cert_advanced_ctx m cb c certs i hs hc hp]
    · rw [cert_advanced_ctx m cb c certs i hs hc hp]
    · rw [cert_advanced_ctx m cb c certs i hs hc hp, hp]
      simp only
      split_ifs <;> simp

/-- The example session: a rejected certificate, and a rejected key after the
certificates. -/
theorem C19_rejection_and_consumption_witness :
    (∃ m1, cng_store_load example_platform example_session_keys (fun _ => 0) =
        Except.ok (0, m1) ∧ m1.store_ctx = example_session_keys.store_ctx ∧
      m1.trace = example_session_keys.trace ++
        [Event.object_cb (pkey_object example_platform example_session_keys) 0] ∧
      pkey_object example_platform m1 = pkey_object example_platform example_session_keys) ∧
    (∃ m1, cng_store_load example_platform example_session (fun _ => 0) = Except.ok (1, m1) ∧
      m1.store_ctx.prev_cert_ctx = (if 0 + 1 < example_certs.length then some (0 + 1) else none) ∧
      m1.store_ctx.cert_store_eof = decide (¬ 0 + 1 < example_certs.length) ∧
      m1.store_ctx.prev_cert_ctx ≠ example_session.store_ctx.prev_cert_ctx) :=
  ⟨(C19_rejection_and_consumption example_platform example_session_keys (fun _ => 0)).1
    rfl rfl rfl,
   (C19_rejection_and_consumption example_platform example_session (fun _ => 0)).2
    example_certs 0 _ rfl rfl rfl rfl rfl⟩

/-! ## C20: the session invariant -/

theorem open_invariant (P : Platform) (provctx : Option Nat) (uri : Option CString)
    (ctx : T_CNG_STORE_CTX) (tr : List Event)
    (hopen : cng_store_open P provctx uri = Except.ok (some ctx, tr)) :
    ∃ certs, SessionInvariant P certs { store_ctx := ctx, trace := tr } := by
  obtain ⟨certs, hs, hp, he, hcur, -⟩ := open_state P provctx uri ctx tr hopen
  refine ⟨certs, hs, ?_, 0, hcur⟩
  by_cases hpos : 0 < certs.length
  · left
    rw [if_pos hpos] at hp
    have hne : ¬ certs.length = 0 := by omega
    simp only [hne, decide_False] at he
    exact ⟨he, 0, hp, hpos⟩
  · right
    rw [if_neg hpos] at hp
    have hz : certs.length = 0 := by omega
    simp only [hz, decide_True] at he
    exact ⟨he, hp⟩

theorem load_invariant (P : Platform) (certs : List CERT_CONTEXT) (m : Machine)
    (cb : OSSL_CALLBACK) (hinv : SessionInvariant P certs m) :
    ∃ r m1, step P m (Call.load cb) = Except.ok (r, m1) ∧ SessionInvariant P certs m1 := by
  obtain ⟨hs, hcert, s, hcur⟩ := hinv
  rcases hcert with ⟨hc, i, hp, hi⟩ | ⟨hc, hp⟩
  · have hd : deref m.store_ctx.windows_certificate_store m.store_ctx.prev_cert_ctx =
        some (certs.get ⟨i, hi⟩) := by rw [hs, hp]; simp [deref]
    obtain ⟨-, hstep⟩ := load_cert_step P m cb _ hc hd
    have hctx := cert_advanced_ctx m cb (certs.get ⟨i, hi⟩) certs i hs hc hp
    refine ⟨_, _, hstep, ?_, ?_, s, ?_⟩
    · rw [hctx]; exact hs
    · rw [hctx]
      by_cases hlt : i + 1 < certs.length
      · left
        exact ⟨by simp [hlt], i + 1, by simp [hlt], hlt⟩
      · right
        exact ⟨by simp [hlt], by simp [hlt]⟩
    · unfold KeyCursorAt at hcur ⊢
      exact hcur
  · cases hk : m.store_ctx.priv_key_store_eof with
    | true =>
      exact ⟨_, m, load_exhausted P m cb hc hk, hs, Or.inr ⟨hc, hp⟩, s, hcur⟩
    | false =>
      by_cases hcb : cb (pkey_object P m) = 0
      · have hl := load_key_rejected P m cb hc hk hcb
        refine ⟨_, key_offered P m cb, by simp only [step, hl]; rfl, hs, Or.inr ⟨hc, hp⟩, s, ?_⟩
        unfold KeyCursorAt at hcur ⊢
        exact hcur
      · obtain ⟨new, -, -, hstep⟩ := load_key_step P m cb hc hk hcb
        have hcerts : store_certs m = certs := by simp [store_certs, hs]
        rw [hcerts] at hstep
        refine ⟨_, _, hstep, ?_, ?_, start_index m.store_ctx.prev_key_cert_ctx, ?_⟩
        · cases scan P (certs.drop (start_index m.store_ctx.prev_key_cert_ctx))
            (start_index m.store_ctx.prev_key_cert_ctx) <;> exact hs
        · right
          cases scan P (certs.drop (start_index m.store_ctx.prev_key_cert_ctx))
            (start_index m.store_ctx.prev_key_cert_ctx) <;> exact ⟨hc, hp⟩
        · unfold KeyCursorAt
          cases hsc : scan P (certs.drop (start_index m.store_ctx.prev_key_cert_ctx))
            (start_index m.store_ctx.prev_key_cert_ctx) with
          | none => rfl
          | some jh => exact ⟨rfl, rfl, rfl⟩

theorem loads_invariant (P : Platform) (certs : List CERT_CONTEXT) :
    ∀ (cbs : List OSSL_CALLBACK) (m : Machine), SessionInvariant P certs m →
    ∃ rs m1, run P m (cbs.map Call.load) = Except.ok (rs, m1) ∧
      SessionInvariant P certs m1 := by
  intro cbs
  induction cbs with
  | nil => intro m h; exact ⟨[], m, rfl, h⟩
  | cons cb cbs ih =>
    intro m h
    obtain ⟨r, m1, hstep, h1⟩ := load_invariant P certs m cb h
    obtain ⟨rs, m2, hrun, h2⟩ := ih m1 h1
    exact ⟨r :: rs, m2, by rw [List.map_cons]; exact run_cons P _ _ m m1 m2 r rs hstep hrun, h2⟩

/-- C20: every state reached from a successful `cng_store_open` by loads (which
all return) satisfies: `cert_store_eof` is clear iff `prev_cert_ctx` is
non-null, and then it points at a certificate of the store; when
`priv_key_store_eof` is clear, `prev_key_cert_ctx` points at an entry of the
store and the cached key handle is the handle acquired for that entry; hence
the next load dereferences no null pointer and finds a cached handle. -/
theorem C20_pointers_valid (P : Platform) (provctx : Option Nat) (uri : Option CString)
    (ctx : T_CNG_STORE_CTX) (tr : List Event) (cbs : List OSSL_CALLBACK)
    (hopen : cng_store_open P provctx uri = Except.ok (some ctx, tr)) :
    ∃ certs rs m, ctx.windows_certificate_store = some certs ∧
      run P { store_ctx := ctx, trace := tr } (cbs.map Call.load) = Except.ok (rs, m) ∧
      m.store_ctx.windows_certificate_store = some certs ∧
      (m.store_ctx.cert_store_eof = false ↔ m.store_ctx.prev_cert_ctx ≠ none) ∧
      (m.store_ctx.cert_store_eof = false →
        ∃ i c, m.store_ctx.prev_cert_ctx = some i ∧ certs.get? i = some c) ∧
      (m.store_ctx.priv_key_store_eof = false →
        ∃ j c k, m.store_ctx.prev_key_cert_ctx = some j ∧ certs.get? j = some c ∧
          c.private_key = some k ∧
          m.store_ctx.key.windows_key_handle = some k.handle) ∧
      (∀ cb, ∃ r m1, cng_store_load P m cb = Except.ok (r, m1)) := by
  obtain ⟨certs, hinv0⟩ := open_invariant P provctx uri ctx tr hopen
  obtain ⟨rs, m, hrun, hinv⟩ := loads_invariant P certs cbs _ hinv0
  have hinv' := hinv
  obtain ⟨hs, hcert, s, hcur⟩ := hinv
  refine ⟨certs, rs, m, hinv0.1, hrun, hs, ?_, ?_, ?_, ?_⟩
  · rcases hcert with ⟨hc, i, hp, -⟩ | ⟨hc, hp⟩
    · simp [hc, hp]
    · simp [hc, hp]
  · intro hc
    rcases hcert with ⟨-, i, hp, hi⟩ | ⟨hc1, -⟩
    · exact ⟨i, certs.get ⟨i, hi⟩, hp, by simp⟩
    · rw [hc1] at hc; exact absurd hc (by decide)
  · intro hk
    unfold KeyCursorAt at hcur
    cases hsc : scan P (certs.drop s) s with
    | none => rw [hsc] at hcur; simp only at hcur; rw [hcur] at hk; exact absurd hk (by decide)
    | some jh =>
      obtain ⟨j, h⟩ := jh
      rw [hsc] at hcur
      simp only at hcur
      obtain ⟨hp, -, hkey⟩ := hcur
      obtain ⟨k, c, hj, hg, hq, -⟩ := scan_first P _ s j h hsc
      obtain ⟨key, hpk, -, -, -, hh⟩ := (qualifying_handle_some_iff P c h).1 hq
      refine ⟨j, c, key, hp, ?_, hpk, by rw [hkey, hh]⟩
      rw [hj]
      simpa [List.get?_eq_getElem?, List.getElem?_drop] using hg
  · intro cb
    obtain ⟨r, m1, hstep, -⟩ := load_invariant P certs m cb hinv'
    simp only [step] at hstep
    cases hl : cng_store_load P m cb with
    | error f => simp [hl] at hstep
    | ok x => exact ⟨x.1, x.2, rfl⟩

/-- The example session after a load with a rejecting and a load with an
accepting callback. -/
theorem C20_pointers_valid_witness :
    ∃ certs rs m, example_session.store_ctx.windows_certificate_store = some certs ∧
      run example_platform
        { store_ctx := example_session.store_ctx, trace := example_session.trace }
        (([fun _ => 0, fun _ => 1] : List OSSL_CALLBACK).map Call.load) = Except.ok (rs, m) ∧
      m.store_ctx.windows_certificate_store = some certs ∧
      (m.store_ctx.cert_store_eof = false ↔ m.store_ctx.prev_cert_ctx ≠ none) ∧
      (m.store_ctx.cert_store_eof = false →
        ∃ i c, m.store_ctx.prev_cert_ctx = some i ∧ certs.get? i = some c) ∧
      (m.store_ctx.priv_key_store_eof = false →
        ∃ j c k, m.store_ctx.prev_key_cert_ctx = some j ∧ certs.get? j = some c ∧
          c.private_key = some k ∧
          m.store_ctx.key.windows_key_handle = some k.handle) ∧
      (∀ cb, ∃ r m1, cng_store_load example_platform m cb = Except.ok (r, m1)) :=
  C20_pointers_valid example_platform (some 1) (some (cstr "cng://MY"))
    example_session.store_ctx example_session.trace [fun _ => 0, fun _ => 1]
    example_session_open

/-! ## C18: loads and end of stream agree -/

theorem drive_stop (P : Platform) (cb : OSSL_CALLBACK) (fuel : Nat) (m : Machine)
    (hc : m.store_ctx.cert_store_eof = true) (hk : m.store_ctx.priv_key_store_eof = true) :
    drive P cb (fuel + 1) m = Except.ok ([], m) := by
  simp [drive, cng_store_eof, hc, hk]

theorem drive_step (P : Platform) (cb : OSSL_CALLBACK) (fuel : Nat) (m m1 m2 : Machine)
    (r : Response) (rs : List Response)
    (he : m.store_ctx.cert_store_eof = false ∨ m.store_ctx.priv_key_store_eof = false)
    (hstep : step P m (Call.load cb) = Except.ok (r, m1))
    (hrest : drive P cb fuel m1 = Except.ok (rs, m2)) :
    drive P cb (fuel + 1) m = Except.ok (r :: rs, m2) := by
  have h0 : cng_store_eof m = 0 := by
    unfold cng_store_eof
    rcases he with h | h <;> simp [h]
  simp [drive, h0, hstep, hrest]

/-- An accepted load on a primed key sub-cursor hands over the key it is primed
on and primes the sub-cursor on the next qualifying entry. -/
theorem key_step_next (P : Platform) (certs : List CERT_CONTEXT) (m : Machine)
    (cb : OSSL_CALLBACK) (s j : Nat) (h : NCRYPT_KEY_HANDLE)
    (hst : m.store_ctx.windows_certificate_store = some certs)
    (hc : m.store_ctx.cert_store_eof = true)
    (hcur : KeyCursorAt P certs m.store_ctx s)
    (hsc : scan P (certs.drop s) s = some (j, h))
    (hacc : ∀ o, cb o ≠ 0) :
    m.store_ctx.priv_key_store_eof = false ∧
    ∃ m2, step P m (Call.load cb) = Except.ok (pkey_response h, m2) ∧
      m2.store_ctx.windows_certificate_store = some certs ∧
      m2.store_ctx.cert_store_eof = true ∧
      KeyCursorAt P certs m2.store_ctx (j + 1) := by
  unfold KeyCursorAt at hcur
  rw [hsc] at hcur
  simp only at hcur
  obtain ⟨hp, hk, hkey⟩ := hcur
  obtain ⟨k, -, -, hn⟩ := scan_some P _ s j h hsc
  have hobj : pkey_object P m = OSSL_OBJECT.PKEY (some "rsaEncryption")
      { windows_key_handle := some h } := by
    simp [pkey_object, hkey, hn]
  obtain ⟨new, -, -, hstep⟩ := load_key_step P m cb hc hk (hacc _)
  rw [hobj] at hstep
  have hcerts : store_certs m = certs := by simp [store_certs, hst]
  rw [hcerts, hp] at hstep
  have hsi : start_index (some j) = j + 1 := rfl
  rw [hsi] at hstep
  refine ⟨hk, ?_⟩
  cases hsc2 : scan P (certs.drop (j + 1)) (j + 1) with
  | none =>
    rw [hsc2] at hstep
    exact ⟨_, hstep, hst, hc, by unfold KeyCursorAt; rw [hsc2]; rfl⟩
  | some jh2 =>
    rw [hsc2] at hstep
    exact ⟨_, hstep, hst, hc, by unfold KeyCursorAt; rw [hsc2]; exact ⟨rfl, rfl, rfl⟩⟩

/-- The driver loop on the key sub-cursor: one load per pending qualifying key. -/
theorem drive_keys (P : Platform) (certs : List CERT_CONTEXT) (cb : OSSL_CALLBACK)
    (hacc : ∀ o, cb o ≠ 0) :
    ∀ (hs : List NCRYPT_KEY_HANDLE) (s : Nat) (m : Machine) (fuel : Nat),
    m.store_ctx.windows_certificate_store = some certs →
    m.store_ctx.cert_store_eof = true →
    KeyCursorAt P certs m.store_ctx s →
    hs = (certs.drop s).filterMap (qualifying_handle P) →
    hs.length + 1 ≤ fuel →
    ∃ m1, drive P cb fuel m = Except.ok (hs.map pkey_response, m1) ∧
      cng_store_eof m1 = 1 := by
  intro hs
  induction hs with
  | nil =>
    intro s m fuel hst hc hcur hhs hfuel
    have hk : m.store_ctx.priv_key_store_eof = true := by
      unfold KeyCursorAt at hcur
      cases hsc : scan P (certs.drop s) s with
      | some jh =>
        obtain ⟨k, -, hf, -⟩ := scan_some P _ s jh.1 jh.2 hsc
        rw [hf] at hhs; simp at hhs
      | none => rw [hsc] at hcur; exact hcur
    obtain ⟨n, rfl⟩ : ∃ n, fuel = n + 1 := ⟨fuel - 1, by omega⟩
    exact ⟨m, drive_stop P cb n m hc hk, by simp [cng_store_eof, hc, hk]⟩
  | cons h hs ih =>
    intro s m fuel hst hc hcur hhs hfuel
    cases hsc : scan P (certs.drop s) s with
    | none => rw [scan_none P _ s hsc] at hhs; simp at hhs
    | some jh =>
      obtain ⟨j, h0⟩ := jh
      obtain ⟨k, hj, hf, -⟩ := scan_some P _ s j h0 hsc
      rw [hf] at hhs
      simp only [List.cons.injEq] at hhs
      obtain ⟨rfl, hhs⟩ := hhs
      have hdrop : (certs.drop s).drop (k + 1) = certs.drop (j + 1) := by
        rw [List.drop_drop]; congr 1; omega
      rw [hdrop] at hhs
      obtain ⟨hk, m2, hstep, hst2, hc2, hcur2⟩ :=
        key_step_next P certs m cb s j h hst hc hcur hsc hacc
      obtain ⟨n, rfl⟩ : ∃ n, fuel = n + 1 := ⟨fuel - 1, by simp at hfuel; omega⟩
      obtain ⟨m1, hrun, he⟩ := ih (j + 1) m2 n hst2 hc2 hcur2 hhs
        (by simp at hfuel; omega)
      exact ⟨m1, by rw [List.map_cons]; exact drive_step P cb n m m2 m1 _ _ (Or.inr hk) hstep hrun,
        he⟩

/-- The driver loop from certificate `i` on: one load per remaining certificate,
then one load per qualifying key. -/
theorem drive_certs (P : Platform) (certs : List CERT_CONTEXT) (cb : OSSL_CALLBACK)
    (hacc : ∀ o, cb o ≠ 0) :
    ∀ (rem i : Nat) (m : Machine) (fuel : Nat),
    m.store_ctx.windows_certificate_store = some certs →
    m.store_ctx.cert_store_eof = false →
    m.store_ctx.prev_cert_ctx = some i →
    KeyCursorAt P certs m.store_ctx 0 →
    i + (rem + 1) = certs.length →
    (rem + 1) + (certs.filterMap (qualifying_handle P)).length + 1 ≤ fuel →
    ∃ m1, drive P cb fuel m = Except.ok
        ((certs.drop i).map cert_response ++
          (certs.filterMap (qualifying_handle P)).map pkey_response, m1) ∧
      cng_store_eof m1 = 1 := by
  intro rem
  induction rem with
  | zero =>
    intro i m fuel hs heof hp hcur hlen hfuel
    have hi : i < certs.length := by omega
    have hd : deref m.store_ctx.windows_certificate_store m.store_ctx.prev_cert_ctx =
        some (certs.get ⟨i, hi⟩) := by rw [hs, hp]; simp [deref]
    obtain ⟨-, hstep⟩ := load_cert_step P m cb _ heof hd
    have hctx := cert_advanced_ctx m cb (certs.get ⟨i, hi⟩) certs i hs heof hp
    have hnlt : ¬ i + 1 < certs.length := by omega
    obtain ⟨n, rfl⟩ : ∃ n, fuel = n + 1 := ⟨fuel - 1, by omega⟩
    obtain ⟨m1, hrun, he⟩ := drive_keys P certs cb hacc _ 0
      (cert_advanced m cb (certs.get ⟨i, hi⟩)) n
      (by rw [hctx]; exact hs) (by rw [hctx]; simp [hnlt])
      (by unfold KeyCursorAt at hcur ⊢; exact hcur) rfl
      (by simp only [List.drop_zero]; omega)
    refine ⟨m1, ?_, he⟩
    rw [drive_step P cb n m _ m1 _ _ (Or.inl heof) hstep hrun]
    rw [drop_eq_get_cons certs i hi]
    have : certs.drop (i + 1) = [] := by
      apply List.drop_eq_nil_of_le; omega
    rw [this]
    simp [cert_response]
  | succ rem ih =>
    intro i m fuel hs heof hp hcur hlen hfuel
    have hi : i < certs.length := by omega
    have hd : deref m.store_ctx.windows_certificate_store m.store_ctx.prev_cert_ctx =
        some (certs.get ⟨i, hi⟩) := by rw [hs, hp]; simp [deref]
    obtain ⟨-, hstep⟩ := load_cert_step P m cb _ heof hd
    have hctx := cert_advanced_ctx m cb (certs.get ⟨i, hi⟩) certs i hs heof hp
    have hlt : i + 1 < certs.length := by omega
    obtain ⟨n, rfl⟩ : ∃ n, fuel = n + 1 := ⟨fuel - 1, by omega⟩
    obtain ⟨m1, hrun, he⟩ := ih (i + 1) (cert_advanced m cb (certs.get ⟨i, hi⟩)) n
      (by rw [hctx]; exact hs) (by rw [hctx]; simp [hlt]) (by rw [hctx]; simp [hlt])
      (by unfold KeyCursorAt at hcur ⊢; exact hcur) (by omega) (by omega)
    refine ⟨m1, ?_, he⟩
    rw [drive_step P cb n m _ m1 _ _ (Or.inl heof) hstep hrun]
    rw [drop_eq_get_cons certs i hi]
    rfl

/-- C18: with an accepting callback, in every state reached from
`cng_store_open` by any calls, a load returns 0 iff `cng_store_eof` was nonzero
before it, and when `cng_store_eof` was 0 the load hands over exactly one object
and returns 1; and the driver loop `while (!eof) load` on a store with the
certificates `certs` makes exactly one load per certificate and then one per
qualifying key, each returning 1, and stops with `cng_store_eof` at 1. -/
theorem C18_load_agrees_with_eof (P : Platform) (provctx : Option Nat)
    (uri : Option CString) (ctx : T_CNG_STORE_CTX) (tr : List Event)
    (certs : List CERT_CONTEXT) (cb : OSSL_CALLBACK) (calls : List Call) (fuel : Nat)
    (hopen : cng_store_open P provctx uri = Except.ok (some ctx, tr))
    (hstore : ctx.windows_certificate_store = some certs)
    (hacc : ∀ o, cb o ≠ 0)
    (hfuel : certs.length + (certs.filterMap (qualifying_handle P)).length + 1 ≤ fuel) :
    (∃ rs m r m1, run P { store_ctx := ctx, trace := tr } calls = Except.ok (rs, m) ∧
      step P m (Call.load cb) = Except.ok (r, m1) ∧
      (r.ret = 0 ↔ cng_store_eof m ≠ 0) ∧
      (cng_store_eof m = 0 → r.ret = 1 ∧ ∃ o, r.objects = [o]) ∧
      (cng_store_eof m ≠ 0 → r.objects = [] ∧ m1 = m)) ∧
    (∃ m, drive P cb fuel { store_ctx := ctx, trace := tr } = Except.ok
        (certs.map cert_response ++
          (certs.filterMap (qualifying_handle P)).map pkey_response, m) ∧
      (certs.map cert_response ++
        (certs.filterMap (qualifying_handle P)).map pkey_response).length =
          certs.length + (certs.filterMap (qualifying_handle P)).length ∧
      (∀ r ∈ certs.map cert_response ++
        (certs.filterMap (qualifying_handle P)).map pkey_response, r.ret = 1) ∧
      cng_store_eof m = 1) := by
  constructor
  · obtain ⟨rs, m, hrun, hv, -, -⟩ := run_invariant P calls _
      (open_valid P provctx uri ctx tr hopen)
    cases hc : m.store_ctx.cert_store_eof with
    | false =>
      obtain ⟨c, hd⟩ := hv hc
      obtain ⟨-, hstep⟩ := load_cert_step P m cb c hc hd
      have h0 : cng_store_eof m = 0 := by simp [cng_store_eof, hc]
      exact ⟨rs, m, _, _, hrun, hstep, by simp [h0], fun _ => ⟨rfl, _, rfl⟩,
        fun h => absurd h0 h⟩
    | true =>
      cases hk : m.store_ctx.priv_key_store_eof with
      | true =>
        have h1 : cng_store_eof m = 1 := by simp [cng_store_eof, hc, hk]
        exact ⟨rs, m, _, _, hrun, load_exhausted P m cb hc hk, by simp [h1],
          fun h => by rw [h1] at h; exact absurd h (by decide), fun _ => ⟨rfl, rfl⟩⟩
      | false =>
        have h0 : cng_store_eof m = 0 := by simp [cng_store_eof, hc, hk]
        obtain ⟨new, -, -, hstep⟩ := load_key_step P m cb hc hk (hacc _)
        exact ⟨rs, m, _, _, hrun, hstep, by simp [h0], fun _ => ⟨rfl, _, rfl⟩,
          fun h => absurd h0 h⟩
  · obtain ⟨certs1, hs, hp, he, hcur, -⟩ := open_state P provctx uri ctx tr hopen
    rw [hstore] at hs
    simp only [Option.some.injEq] at hs
    subst hs
    have hlen : (certs.map cert_response ++
        (certs.filterMap (qualifying_handle P)).map pkey_response).length =
          certs.length + (certs.filterMap (qualifying_handle P)).length := by simp
    have hret : ∀ r ∈ certs.map cert_response ++
        (certs.filterMap (qualifying_handle P)).map pkey_response, r.ret = 1 := by
      intro r hr
      simp only [List.mem_append, List.mem_map] at hr
      rcases hr with ⟨c, -, rfl⟩ | ⟨h, -, rfl⟩ <;> rfl
    by_cases hpos : 0 < certs.length
    · rw [if_pos hpos] at hp
      have hne : ¬ certs.length = 0 := by omega
      simp only [hne, decide_False] at he
      obtain ⟨m1, hrun, hend⟩ := drive_certs P certs cb hacc (certs.length - 1) 0
        { store_ctx := ctx, trace := tr } fuel hstore he hp hcur (by omega) (by omega)
      exact ⟨m1, by simpa using hrun, hlen, hret, hend⟩
    · have hnil : certs = [] := List.eq_nil_of_length_eq_zero (by omega)
      subst hnil
      simp only [List.length_nil, decide_True] at he
      obtain ⟨m1, hrun, hend⟩ := drive_keys P [] cb hacc _ 0
        { store_ctx := ctx, trace := tr } fuel hstore he hcur rfl (by simpa using hfuel)
      exact ⟨m1, by simpa using hrun, hlen, hret, hend⟩

/-- The example store: two certificates and one qualifying key, so the driver
loop makes three loads. -/
theorem C18_load_agrees_with_eof_witness :
    ∃ m, drive example_platform (fun _ => 1) 4
        { store_ctx := example_session.store_ctx, trace := example_session.trace } = Except.ok
        (example_certs.map cert_response ++
          (example_certs.filterMap (qualifying_handle example_platform)).map pkey_response, m) ∧
      (example_certs.map cert_response ++
        (example_certs.filterMap (qualifying_handle example_platform)).map
          pkey_response).length =
          example_certs.length +
            (example_certs.filterMap (qualifying_handle example_platform)).length ∧
      (∀ r ∈ example_certs.map cert_response ++
        (example_certs.filterMap (qualifying_handle example_platform)).map pkey_response,
        r.ret = 1) ∧
      cng_store_eof m = 1 :=
  (C18_load_agrees_with_eof example_platform (some 1) (some (cstr "cng://MY"))
    example_session.store_ctx example_session.trace example_certs (fun _ => 1) [] 4
    example_session_open rfl (fun _ => one_ne_zero) (by decide)).2

end CngStore
